import Mathlib

/-!
# Car rental system: embedding of `RentalSystem_Finalproject.cpp`

The C++ classes `Vehicle` (with subclasses `Sedan`, `SUV`, `Truck`), `Booking`, `Feedback`,
`Customer` and `CarRentalSystem` are embedded as Lean structures, their methods as pure functions
that pass the system state explicitly.

Modelling conventions:

* heap objects of class `Vehicle` are owned by the catalog `vehicles`; a `Vehicle*` is
  `none` for `nullptr` and `some p` for the address of the object held in catalog slot `p`
  (0-based), so pointer equality is equality of slots;
* `Customer* currentUser` points into the buffer of `vector<Customer> customers`. It is `none`
  for `nullptr` and `some u` for the address of position `u` of the buffer the vector owned when
  the pointer was set; `currentUserBuffer` records which buffer that was. A `push_back` moves
  the elements to a new buffer whenever the size exceeds the capacity and then leaves the pointer
  dangling; the language fixes no capacity, so the model takes every `push_back` to move the
  buffer (as the usual implementations do when the directory grows from one customer to two),
  and identifies a buffer by the number of elements the vector held when it was set up;
* dereferencing a pointer that designates no object, or indexing a vector out of bounds, is
  undefined behaviour in C++; the model reports it as `Outcome.undefinedBehaviour` and stops:
  the state returned with that outcome is the state before the call, and what the program does
  after such an access is not modelled;
* `int` is `Int` (no arithmetic in the modelled methods can overflow: the only subtraction is
  `index - 1` after `1 ≤ index` was established);
* a `double` price is the exact rational value of a finite double; the only arithmetic is the
  product `pricePerDay * days` of `Booking::Booking`, modelled by `Double.mulInt` as the exact
  product rounded to the nearest binary64 value, ties to even, infinite on overflow (`int` values
  convert to `double` exactly);
* console output is abstracted to the `Outcome` of a call, one constructor per message.
-/

namespace CarRental

/-- Dynamic class of a `Vehicle` object: which subclass constructor created it. -/
inductive VehicleKind
  | Sedan
  | SUV
  | Truck
deriving DecidableEq, Repr

/-- Class `Vehicle` together with the dynamic class of the object. -/
structure Vehicle where
  kind : VehicleKind
  brand : String
  model : String
  pricePerDay : ℚ
  isAvailable : Bool
deriving DecidableEq, Repr

/-- Constructors `Sedan(b, m, price)`, `SUV(b, m, price)`, `Truck(b, m, price)`: all delegate to
`Vehicle(b, m, price)`, which sets `isAvailable(true)`. -/
def Vehicle.new (k : VehicleKind) (b m : String) (price : ℚ) : CarRental.Vehicle :=
  { kind := k, brand := b, model := m, pricePerDay := price, isAvailable := true }

/-- Method `Vehicle::rentVehicle`: `isAvailable = false`. -/
def Vehicle.rentVehicle (v : Vehicle) : Vehicle :=
  { v with isAvailable := false }

/-- Method `Vehicle::returnVehicle`: `isAvailable = true`. -/
def Vehicle.returnVehicle (v : Vehicle) : Vehicle :=
  { v with isAvailable := true }

/-- Method `Vehicle::getAvailability`. -/
def Vehicle.getAvailability (v : Vehicle) : Bool :=
  v.isAvailable

/-- Method `Vehicle::getPrice`. -/
def Vehicle.getPrice (v : Vehicle) : ℚ :=
  v.pricePerDay

/-- A `Vehicle*`: `none` is `nullptr`, `some p` the object owned by catalog slot `p`. -/
abbrev VehiclePtr := Option Nat

/-- A value of type `double` as a product of a finite price and an `int` can produce it: a
finite value, given exactly (the sign of a zero is not recorded), or an infinity with its
sign. -/
inductive Double
  | finite (value : ℚ)
  | infinity (negative : Bool)
deriving DecidableEq, Repr

/-- Numerals denote the finite value they name (`totalCost = 0` in `Booking::Booking`). -/
instance (n : Nat) : OfNat Double n := ⟨.finite (n : ℚ)⟩

/-- Number of binary digits of `n`, counted with at most `fuel` halvings. -/
def bitLengthFrom : Nat → Nat → Nat
  | 0, _ => 0
  | fuel + 1, n => if n = 0 then 0 else bitLengthFrom fuel (n / 2) + 1

/-- Number of binary digits of `n` (0 for 0); `n` halvings always suffice. -/
def bitLength (n : Nat) : Nat :=
  bitLengthFrom n n

/-- The integer `e` with `2 ^ e ≤ n / d < 2 ^ (e + 1)`, for positive `n` and `d`. -/
def binaryExponent (n d : Nat) : Int :=
  if d * 2 ^ (bitLength n - bitLength d) ≤ n * 2 ^ (bitLength d - bitLength n) then
    (bitLength n : Int) - (bitLength d : Int)
  else (bitLength n : Int) - (bitLength d : Int) - 1

/-- The natural number nearest to `n / d`, the even one of the two when `n / d` lies half way. -/
def roundHalfEven (n d : Nat) : Nat :=
  if 2 * (n % d) < d then n / d
  else if d < 2 * (n % d) then n / d + 1
  else if (n / d) % 2 = 0 then n / d
  else n / d + 1

/-- Rounding of an exact value to binary64, to nearest, ties to even: the result is
`m * 2 ^ qe` with a significand `m` of at most 53 bits and `qe ≥ -1074`, or an infinity when
that would reach `2 ^ 1024`. -/
def Double.round (q : ℚ) : Double :=
  if q = 0 then .finite 0
  else
    let e := binaryExponent q.num.natAbs q.den
    let qe : Int := max e (-1022) - 52
    let m := roundHalfEven (q.num.natAbs * 2 ^ (-qe).toNat) (q.den * 2 ^ qe.toNat)
    if 2 ^ 1024 ≤ m * 2 ^ qe.toNat then .infinity (decide (q < 0))
    else
      .finite ((if q < 0 then -1 else 1) * ((m * 2 ^ qe.toNat : Nat) : ℚ) /
        ((2 ^ (-qe).toNat : Nat) : ℚ))

/-- The product `price * d` of a `double` and an `int` as the machine computes it: `d` converts
exactly, and the exact product is rounded once. -/
def Double.mulInt (price : ℚ) (d : Int) : Double :=
  Double.round (price * (d : ℚ))

/-- Class `Booking`. -/
structure Booking where
  vehicle : VehiclePtr
  days : Int
  totalCost : Double
deriving DecidableEq, Repr

/-- Constructor `Booking(Vehicle* v, int d)`, run against the heap of vehicle objects.
`none` when `v` is neither null nor the address of an object (undefined behaviour). -/
def Booking.new (heap : List Vehicle) (v : VehiclePtr) (d : Int) : Option CarRental.Booking :=
  match v with
  | some p =>
    match heap[p]? with
    | some veh => some { vehicle := v, days := d, totalCost := Double.mulInt veh.getPrice d }
    | none => none
  | none => some { vehicle := v, days := d, totalCost := 0 }

/-- Class `Feedback`. -/
structure Feedback where
  username : String
  comment : String
deriving DecidableEq, Repr

/-- Constructor `Feedback(user, comm)`. -/
def Feedback.new (user comm : String) : CarRental.Feedback :=
  { username := user, comment := comm }

/-- Class `Customer`. -/
structure Customer where
  name : String
  username : String
  password : String
  bookingHistory : List Booking
  rentedVehicles : List VehiclePtr
deriving DecidableEq, Repr

/-- Constructor `Customer(n, u, p)`: both vectors start empty. -/
def Customer.new (n u p : String) : CarRental.Customer :=
  { name := n, username := u, password := p, bookingHistory := [], rentedVehicles := [] }

/-- Method `Customer::getUsername`. -/
def Customer.getUsername (c : Customer) : String :=
  c.username

/-- Method `Customer::getPassword`. -/
def Customer.getPassword (c : Customer) : String :=
  c.password

/-- Method `Customer::getName`. -/
def Customer.getName (c : Customer) : String :=
  c.name

/-- Method `Customer::setPassword`. -/
def Customer.setPassword (c : Customer) (p : String) : Customer :=
  { c with password := p }

/-- Method `Customer::addBooking`: `bookingHistory.push_back(b)`. -/
def Customer.addBooking (c : Customer) (b : Booking) : Customer :=
  { c with bookingHistory := c.bookingHistory ++ [b] }

/-- Method `Customer::addRentedVehicle`: `rentedVehicles.push_back(v)`. -/
def Customer.addRentedVehicle (c : Customer) (v : VehiclePtr) : Customer :=
  { c with rentedVehicles := c.rentedVehicles ++ [v] }

/-- Method `Customer::hasRented`: `find(...) != end()`. -/
def Customer.hasRented (c : Customer) (v : VehiclePtr) : Bool :=
  c.rentedVehicles.elem v

/-- Method `Customer::removeRentedVehicle`: erases the first occurrence found by `find`, and
returns whether there was one. -/
def Customer.removeRentedVehicle (c : Customer) (v : VehiclePtr) : Bool × Customer :=
  if c.rentedVehicles.elem v then
    (true, { c with rentedVehicles := c.rentedVehicles.erase v })
  else
    (false, c)

/-- Class `CarRentalSystem`. The pointer `currentUser` is the pair of the position
`currentUser` and the buffer `currentUserBuffer` it points into (the number of customers the
vector held when the pointer was set; meaningless while `currentUser` is null). -/
structure CarRentalSystem where
  vehicles : List Vehicle
  customers : List Customer
  feedbacks : List Feedback
  currentUser : Option Nat
  currentUserBuffer : Nat
deriving DecidableEq, Repr

/-- Access through `currentUser` when it holds the address of position `u`: the customer stored
there if the vector still owns the buffer the pointer was taken from, and `none`, an access to
an object that no longer exists, once a `push_back` has moved the elements. -/
def CarRentalSystem.deref (s : CarRentalSystem) (u : Nat) : Option Customer :=
  if s.currentUserBuffer = s.customers.length then s.customers[u]? else none

/-- What a call reported. `ok` is the success path of the method (`return true` where the method
returns a `bool`). Every other constructor is one failure path (`return false`), named after the
error kind its message reports:
`DuplicateUsername` "Username already taken...", `InvalidCredentials` "Invalid username or
password!", `UserNotFound` "Username not found!", `OutOfRange` "Invalid vehicle selection!",
`AlreadyRented` "Vehicle is already rented!", `InvalidDuration` "Invalid number of days!...",
`NotRented` "This vehicle is not currently rented.", `NotYourRental` "You have not rented this
vehicle!", `NotAuthenticated` "No user is currently logged in." (in `giveFeedback`: "Please login
as customer to give feedback."). `undefinedBehaviour` marks an access to an object that does not
exist. -/
inductive Outcome
  | ok
  | DuplicateUsername
  | InvalidCredentials
  | UserNotFound
  | OutOfRange
  | AlreadyRented
  | InvalidDuration
  | NotRented
  | NotYourRental
  | NotAuthenticated
  | undefinedBehaviour
deriving DecidableEq, Repr

/-- The `bool` returned by the methods that return one: `true` exactly on the success path. -/
def Outcome.returns : Outcome → Bool
  | .ok => true
  | _ => false

/-- Constructor `CarRentalSystem()`: no session, three sample vehicles. -/
def CarRentalSystem.new : CarRental.CarRentalSystem :=
  { vehicles :=
      [ Vehicle.new .Sedan "Toyota" "Camry" 50,
        Vehicle.new .SUV "Honda" "CR-V" 65,
        Vehicle.new .Truck "Ford" "F-150" 80 ],
    customers := [],
    feedbacks := [],
    currentUser := none,
    currentUserBuffer := 0 }

/-- Loop of `registerCustomer`: is there a customer with `getUsername() == username`? -/
def usernameTaken (username : String) : List Customer → Bool
  | [] => false
  | c :: cs => if c.getUsername = username then true else usernameTaken username cs

/-- Method `CarRentalSystem::registerCustomer`. The `push_back` leaves `currentUser` as it is,
so a pointer set before the call now points into the buffer the vector has given up. -/
def CarRentalSystem.registerCustomer (s : CarRentalSystem) (name username password : String) :
    Outcome × CarRentalSystem :=
  if usernameTaken username s.customers then
    (.DuplicateUsername, s)
  else
    (.ok, { s with customers := s.customers ++ [Customer.new name username password] })

/-- Loop of `loginCustomer`: position of the first customer whose username and password both
match, if any. -/
def loginScan (username password : String) : List Customer → Option Nat
  | [] => none
  | c :: cs =>
    if c.getUsername = username ∧ c.getPassword = password then some 0
    else (loginScan username password cs).map (· + 1)

/-- Method `CarRentalSystem::loginCustomer`: `currentUser = &c` takes the address of the
matching element in the buffer the vector owns now. -/
def CarRentalSystem.loginCustomer (s : CarRentalSystem) (username password : String) :
    Outcome × CarRentalSystem :=
  match loginScan username password s.customers with
  | some u =>
    (.ok, { s with currentUser := some u, currentUserBuffer := s.customers.length })
  | none => (.InvalidCredentials, s)

/-- Loop of `resetPassword`: the directory after `setPassword` on the first customer with the
given username, or `none` when the loop ends without a match. -/
def resetScan (username newPassword : String) : List Customer → Option (List Customer)
  | [] => none
  | c :: cs =>
    if c.getUsername = username then some (c.setPassword newPassword :: cs)
    else (resetScan username newPassword cs).map (c :: ·)

/-- Method `CarRentalSystem::resetPassword`. -/
def CarRentalSystem.resetPassword (s : CarRentalSystem) (username newPassword : String) :
    Outcome × CarRentalSystem :=
  match resetScan username newPassword s.customers with
  | some cs => (.ok, { s with customers := cs })
  | none => (.UserNotFound, s)

/-- Method `CarRentalSystem::addVehicle` (it prints its success message on every path). -/
def CarRentalSystem.addVehicle (s : CarRentalSystem) (type brand model : String) (price : ℚ) :
    CarRentalSystem :=
  if type = "Sedan" then
    { s with vehicles := s.vehicles ++ [Vehicle.new .Sedan brand model price] }
  else if type = "SUV" then
    { s with vehicles := s.vehicles ++ [Vehicle.new .SUV brand model price] }
  else if type = "Truck" then
    { s with vehicles := s.vehicles ++ [Vehicle.new .Truck brand model price] }
  else
    s

/-- Loop of `displayAvailableVehicles`: the numbered lines it prints, the counter starting at
`index` and advancing on every vehicle, printed or not. -/
def displayAvailableFrom : Nat → List Vehicle → List (Nat × Vehicle)
  | _, [] => []
  | index, v :: vs =>
    if v.getAvailability then (index, v) :: displayAvailableFrom (index + 1) vs
    else displayAvailableFrom (index + 1) vs

/-- Method `CarRentalSystem::displayAvailableVehicles`: the numbered lines printed. -/
def CarRentalSystem.displayAvailableVehicles (s : CarRentalSystem) : List (Nat × Vehicle) :=
  displayAvailableFrom 1 s.vehicles

/-- Method `CarRentalSystem::rentVehicle`. -/
def CarRentalSystem.rentVehicle (s : CarRentalSystem) (index days : Int) :
    Outcome × CarRentalSystem :=
  match s.currentUser with
  | none => (.NotAuthenticated, s)
  | some u =>
    if index < 1 ∨ index > (s.vehicles.length : Int) then
      (.OutOfRange, s)
    else
      match s.vehicles[(index - 1).toNat]? with
      | none => (.undefinedBehaviour, s)
      | some v =>
        if !v.getAvailability then
          (.AlreadyRented, s)
        else if days < 1 ∨ days > 30 then
          (.InvalidDuration, s)
        else
          let heap := s.vehicles.set (index - 1).toNat v.rentVehicle
          match s.deref u, Booking.new heap (some (index - 1).toNat) days with
          | some cu, some b =>
            (.ok, { s with
              vehicles := heap,
              customers :=
                s.customers.set u ((cu.addRentedVehicle (some (index - 1).toNat)).addBooking b) })
          | _, _ => (.undefinedBehaviour, s)

/-- Method `CarRentalSystem::returnVehicle`. -/
def CarRentalSystem.returnVehicle (s : CarRentalSystem) (index : Int) :
    Outcome × CarRentalSystem :=
  match s.currentUser with
  | none => (.NotAuthenticated, s)
  | some u =>
    if index < 1 ∨ index > (s.vehicles.length : Int) then
      (.OutOfRange, s)
    else
      match s.vehicles[(index - 1).toNat]? with
      | none => (.undefinedBehaviour, s)
      | some v =>
        if v.getAvailability then
          (.NotRented, s)
        else
          match s.deref u with
          | none => (.undefinedBehaviour, s)
          | some cu =>
            if !cu.hasRented (some (index - 1).toNat) then
              (.NotYourRental, s)
            else
              (.ok, { s with
                vehicles := s.vehicles.set (index - 1).toNat v.returnVehicle,
                customers :=
                  s.customers.set u (cu.removeRentedVehicle (some (index - 1).toNat)).2 })

/-- Method `CarRentalSystem::giveFeedback`. -/
def CarRentalSystem.giveFeedback (s : CarRentalSystem) (comment : String) :
    Outcome × CarRentalSystem :=
  match s.currentUser with
  | some u =>
    match s.deref u with
    | some cu =>
      (.ok, { s with feedbacks := s.feedbacks ++ [Feedback.new cu.getUsername comment] })
    | none => (.undefinedBehaviour, s)
  | none => (.NotAuthenticated, s)

/-- Method `CarRentalSystem::getCurrentUser`. -/
def CarRentalSystem.getCurrentUser (s : CarRentalSystem) : Option Nat :=
  s.currentUser

/-- One call of a state-changing public method of `CarRentalSystem`. -/
inductive Op
  | registerCustomer (name username password : String)
  | loginCustomer (username password : String)
  | resetPassword (username newPassword : String)
  | addVehicle (type brand model : String) (price : ℚ)
  | rentVehicle (index days : Int)
  | returnVehicle (index : Int)
  | giveFeedback (comment : String)

/-- State after one call. -/
def step (s : CarRentalSystem) : Op → CarRentalSystem
  | .registerCustomer n u p => (s.registerCustomer n u p).2
  | .loginCustomer u p => (s.loginCustomer u p).2
  | .resetPassword u p => (s.resetPassword u p).2
  | .addVehicle t b m p => s.addVehicle t b m p
  | .rentVehicle i d => (s.rentVehicle i d).2
  | .returnVehicle i => (s.returnVehicle i).2
  | .giveFeedback c => (s.giveFeedback c).2

/-- State after a sequence of calls, oldest first. -/
def run (s : CarRentalSystem) (ops : List Op) : CarRentalSystem :=
  ops.foldl step s

/-- States reachable from the freshly constructed system by calls of its methods. -/
inductive Reachable : CarRentalSystem → Prop
  | init : Reachable CarRentalSystem.new
  | step (s : CarRentalSystem) (op : Op) : Reachable s → Reachable (step s op)

/-- The rented vector of the customer stored at position `i` of a directory (empty when there is
no such customer). -/
def rentedAt (cs : List Customer) (i : Nat) : List VehiclePtr :=
  match cs[i]? with
  | some c => c.rentedVehicles
  | none => []

/-- Consistency of the availability flags with the rented vectors, and of the session pointer with
the directory. -/
structure Consistent (s : CarRentalSystem) : Prop where
  session : ∀ u, s.currentUser = some u → u < s.customers.length
  nodup : ∀ i, (rentedAt s.customers i).Nodup
  owner : ∀ i j x, x ∈ rentedAt s.customers i → x ∈ rentedAt s.customers j → i = j
  rented : ∀ i x, x ∈ rentedAt s.customers i →
    ∃ p v, x = some p ∧ s.vehicles[p]? = some v ∧ v.isAvailable = false
  held : ∀ p v, s.vehicles[p]? = some v → v.isAvailable = false →
    ∃ i, some p ∈ rentedAt s.customers i

/-- Sample state: a fresh system in which Alice has registered and logged in. -/
def aliceLoggedIn : CarRentalSystem :=
  run CarRentalSystem.new
    [.registerCustomer "Alice" "alice" "pw1", .loginCustomer "alice" "pw1"]

/-- Sample state: Alice has registered, logged in and rented vehicle 1 for three days. -/
def aliceRents : CarRentalSystem :=
  run CarRentalSystem.new
    [.registerCustomer "Alice" "alice" "pw1", .loginCustomer "alice" "pw1", .rentVehicle 1 3]

/-- No two positions of the directory hold customers with the same username. -/
def usernamesUnique (s : CarRentalSystem) : Prop :=
  ∀ (i j : Nat) (ci cj : Customer), s.customers[i]? = some ci → s.customers[j]? = some cj →
    ci.username = cj.username → i = j

/-- Sample state: Alice and Bob have registered, nobody is logged in. -/
def twoRegistered : CarRentalSystem :=
  run CarRentalSystem.new
    [.registerCustomer "Alice" "alice" "pw1", .registerCustomer "Bob" "bob" "pw2"]

/-- Sample state: Alice has registered, nobody is logged in. -/
def aliceRegistered : CarRentalSystem :=
  run CarRentalSystem.new [.registerCustomer "Alice" "alice" "pw1"]

/-- The ways in which one call can change the state: `Effect s t` holds when `t` is `s` itself or
the result of one of the seven mutations performed on a success path. -/
inductive Effect (s : CarRentalSystem) : CarRentalSystem → Prop
  | unchanged : Effect s s
  | registered (c : Customer) (hb : c.bookingHistory = []) (hr : c.rentedVehicles = [])
      (hu : ∀ d ∈ s.customers, d.username ≠ c.username) :
      Effect s { s with customers := s.customers ++ [c] }
  | loggedIn (k : Nat) (hk : k < s.customers.length) :
      Effect s { s with currentUser := some k, currentUserBuffer := s.customers.length }
  | passwordSet (k : Nat) (c : Customer) (newPassword : String)
      (hk : s.customers[k]? = some c) :
      Effect s { s with customers := s.customers.set k { c with password := newPassword } }
  | vehicleAdded (v : Vehicle) (hv : v.isAvailable = true) :
      Effect s { s with vehicles := s.vehicles ++ [v] }
  | rented (u p : Nat) (cu : Customer) (v : Vehicle) (days : Int)
      (hu : s.currentUser = some u) (hcu : s.customers[u]? = some cu)
      (hv : s.vehicles[p]? = some v) (hav : v.isAvailable = true)
      (hd1 : 1 ≤ days) (hd2 : days ≤ 30) :
      Effect s { s with
        vehicles := s.vehicles.set p { v with isAvailable := false },
        customers := s.customers.set u
          { cu with
            rentedVehicles := cu.rentedVehicles ++ [some p],
            bookingHistory := cu.bookingHistory ++
              [{ vehicle := some p, days := days,
                 totalCost := Double.mulInt v.pricePerDay days }] } }
  | returned (u p : Nat) (cu : Customer) (v : Vehicle)
      (hu : s.currentUser = some u) (hcu : s.customers[u]? = some cu)
      (hv : s.vehicles[p]? = some v) (hav : v.isAvailable = false)
      (hmem : some p ∈ cu.rentedVehicles) :
      Effect s { s with
        vehicles := s.vehicles.set p { v with isAvailable := true },
        customers := s.customers.set u
          { cu with rentedVehicles := cu.rentedVehicles.erase (some p) } }
  | feedbackGiven (u : Nat) (cu : Customer) (comment : String)
      (hu : s.currentUser = some u) (hcu : s.customers[u]? = some cu) :
      Effect s { s with
        feedbacks := s.feedbacks ++ [{ username := cu.username, comment := comment }] }

/-- Sample state: a customer registered under the empty username and logged in. -/
def emptyUsernameSession : CarRentalSystem :=
  run CarRentalSystem.new [.registerCustomer "Nobody" "" "pw", .loginCustomer "" "pw"]

/-- A booking is sound for a catalog when its days lie in `[1, 30]`, its vehicle pointer
designates a vehicle of the catalog, and its total cost is the machine product of that vehicle's
price per day and the days. -/
def Booking.sound (vs : List Vehicle) (b : Booking) : Prop :=
  1 ≤ b.days ∧ b.days ≤ 30 ∧
    ∃ (p : Nat) (v : Vehicle), b.vehicle = some p ∧ vs[p]? = some v ∧
      b.totalCost = Double.mulInt v.pricePerDay b.days

/-- What the user types in the customer menu of `main`: the menu number with the values read
after it; `invalid` is any number other than 1 to 6. -/
inductive CustomerChoice
  | viewAvailable
  | rent (vehNo days : Int)
  | giveBack (vehNo : Int)
  | history
  | feedback (text : String)
  | logout
  | invalid

/-- One pass through the body of the customer menu loop of `main`: the state of `system` after
the pass, and whether the loop goes on (`false` for the `break` of the Logout branch). Choices 1
and 4 only print; the Logout branch prints "Logging out..." and breaks without calling any
method of `system`. -/
def customerMenu (s : CarRentalSystem) : CustomerChoice → CarRentalSystem × Bool
  | .viewAvailable => (s, true)
  | .rent vehNo days => ((s.rentVehicle vehNo days).2, true)
  | .giveBack vehNo => ((s.returnVehicle vehNo).2, true)
  | .history => (s, true)
  | .feedback text => ((s.giveFeedback text).2, true)
  | .logout => (s, false)
  | .invalid => (s, true)

/-- Sample state: Alice registered and logged in, then Bob registered. `currentUser` still holds
the address taken at Alice's login, in the buffer the vector had before Bob's `push_back`. -/
def staleSession : CarRentalSystem :=
  run CarRentalSystem.new
    [.registerCustomer "Alice" "alice" "pw1", .loginCustomer "alice" "pw1",
     .registerCustomer "Bob" "bob" "pw2"]

/-- Sample state: Alice rented vehicle 1, then Bob registered; nobody logged in since. -/
def staleSessionRented : CarRentalSystem :=
  run aliceRents [.registerCustomer "Bob" "bob" "pw2"]

/-- The `double` nearest to one tenth: `0x1.999999999999ap-4`. -/
def oneTenth : ℚ :=
  3602879701896397 / 36028797018963968

/-- Sample state: a fourth vehicle priced at the `double` nearest to 0.1 was added, then Alice
registered and logged in. -/
def tenthSession : CarRentalSystem :=
  run CarRentalSystem.new
    [.addVehicle "Sedan" "Kia" "Rio" oneTenth, .registerCustomer "Alice" "alice" "pw1",
     .loginCustomer "alice" "pw1"]

/-- Sample state: in `tenthSession`, Alice rented the fourth vehicle for three days. -/
def tenthRented : CarRentalSystem :=
  run tenthSession [.rentVehicle 4 3]

/-- The catalog as `rentVehicle` has left it when control reaches the first access through
`currentUser` (`currentUser->addRentedVehicle(v)`): the four checks have passed and
`v->rentVehicle()` has already cleared the flag. `none` when the call returns before that. -/
def CarRentalSystem.catalogAtRentAccess (s : CarRentalSystem) (index days : Int) :
    Option (List Vehicle) :=
  match s.currentUser with
  | none => none
  | some _ =>
    if index < 1 ∨ index > (s.vehicles.length : Int) then none
    else
      match s.vehicles[(index - 1).toNat]? with
      | none => none
      | some v =>
        if !v.getAvailability then none
        else if days < 1 ∨ days > 30 then none
        else some (s.vehicles.set (index - 1).toNat v.rentVehicle)

/-! ## How each method acts on the state -/

theorem deref_eq_some_iff (s : CarRentalSystem) (u : Nat) (cu : Customer) :
    s.deref u = some cu ↔
      s.customers[u]? = some cu ∧ s.currentUserBuffer = s.customers.length := by
  unfold CarRentalSystem.deref
  by_cases hb : s.currentUserBuffer = s.customers.length
  · simp [hb]
  · simp [hb]

theorem deref_eq_none_iff (s : CarRentalSystem) (u : Nat) :
    s.deref u = none ↔
      s.customers[u]? = none ∨ s.currentUserBuffer ≠ s.customers.length := by
  unfold CarRentalSystem.deref
  by_cases hb : s.currentUserBuffer = s.customers.length
  · simp [hb]
  · simp [hb]

/-- On its success path `rentVehicle` flips the flag of the chosen slot and extends the session
customer's two vectors. -/
theorem rentVehicle_ok (s : CarRentalSystem) (index days : Int) (u : Nat) (cu : Customer)
    (v : Vehicle) (hu : s.currentUser = some u) (hcu : s.customers[u]? = some cu)
    (hbuf : s.currentUserBuffer = s.customers.length)
    (h1 : 1 ≤ index) (hv : s.vehicles[(index - 1).toNat]? = some v)
    (hav : v.isAvailable = true) (hd1 : 1 ≤ days) (hd2 : days ≤ 30) :
    s.rentVehicle index days =
      (.ok, { s with
        vehicles := s.vehicles.set (index - 1).toNat { v with isAvailable := false },
        customers := s.customers.set u
          { cu with
            rentedVehicles := cu.rentedVehicles ++ [some (index - 1).toNat],
            bookingHistory := cu.bookingHistory ++
              [{ vehicle := some (index - 1).toNat, days := days,
                 totalCost := Double.mulInt v.pricePerDay days }] } }) := by
  have hlt : (index - 1).toNat < s.vehicles.length := (List.getElem?_eq_some_iff.1 hv).1
  have hle : ¬ (index < 1 ∨ index > (s.vehicles.length : Int)) := by omega
  have hd : ¬ (days < 1 ∨ days > 30) := by omega
  have hderef : s.deref u = some cu := (deref_eq_some_iff s u cu).2 ⟨hcu, hbuf⟩
  unfold CarRentalSystem.rentVehicle
  generalize (index - 1).toNat = p at *
  simp [hu, hderef, hv, hav, hle, hd, Booking.new, hlt, Vehicle.getAvailability,
    Vehicle.rentVehicle, Vehicle.getPrice, Customer.addRentedVehicle, Customer.addBooking]

/-- Whenever `rentVehicle` reports success, all of its checks passed and the session pointer
designated a customer. -/
theorem rentVehicle_ok_inv (s : CarRentalSystem) (index days : Int)
    (h : (s.rentVehicle index days).1 = .ok) :
    ∃ u cu v, s.currentUser = some u ∧ s.customers[u]? = some cu ∧
      s.currentUserBuffer = s.customers.length ∧ 1 ≤ index ∧
      index ≤ (s.vehicles.length : Int) ∧ s.vehicles[(index - 1).toNat]? = some v ∧
      v.isAvailable = true ∧ 1 ≤ days ∧ days ≤ 30 := by
  unfold CarRentalSystem.rentVehicle at h
  generalize (index - 1).toNat = p at *
  cases hu : s.currentUser with
  | none => simp [hu] at h
  | some u =>
    by_cases hr : index < 1 ∨ index > (s.vehicles.length : Int)
    · simp [hu, hr] at h
    · cases hv : s.vehicles[p]? with
      | none => simp [hu, hr, hv] at h
      | some v =>
        cases hav : v.isAvailable with
        | false => simp [hu, hr, hv, hav, Vehicle.getAvailability] at h
        | true =>
          by_cases hd : days < 1 ∨ days > 30
          · simp [hu, hr, hv, hav, hd, Vehicle.getAvailability] at h
          · cases hcu : s.deref u with
            | none => simp [hu, hr, hv, hav, hd, hcu, Vehicle.getAvailability] at h
            | some cu =>
              obtain ⟨h1, h2⟩ := (deref_eq_some_iff s u cu).1 hcu
              exact ⟨u, cu, v, rfl, h1, h2, by omega, by omega, rfl, hav, by omega, by omega⟩

/-- A call of `rentVehicle` that does not report success leaves the state as it was. -/
theorem rentVehicle_not_ok (s : CarRentalSystem) (index days : Int)
    (h : (s.rentVehicle index days).1 ≠ .ok) : (s.rentVehicle index days).2 = s := by
  have key : (s.rentVehicle index days).2 = s ∨ (s.rentVehicle index days).1 = .ok := by
    unfold CarRentalSystem.rentVehicle
    generalize (index - 1).toNat = p
    repeat' first | exact Or.inl rfl | exact Or.inr rfl | split | dsimp only
  exact key.resolve_right h

/-- On its success path `returnVehicle` flips the flag of the chosen slot back and erases the
first occurrence of the slot from the session customer's rented vector. -/
theorem returnVehicle_ok (s : CarRentalSystem) (index : Int) (u : Nat) (cu : Customer)
    (v : Vehicle) (hu : s.currentUser = some u) (hcu : s.customers[u]? = some cu)
    (hbuf : s.currentUserBuffer = s.customers.length)
    (h1 : 1 ≤ index) (hv : s.vehicles[(index - 1).toNat]? = some v)
    (hav : v.isAvailable = false) (hmem : some (index - 1).toNat ∈ cu.rentedVehicles) :
    s.returnVehicle index =
      (.ok, { s with
        vehicles := s.vehicles.set (index - 1).toNat { v with isAvailable := true },
        customers := s.customers.set u
          { cu with rentedVehicles := cu.rentedVehicles.erase (some (index - 1).toNat) } }) := by
  have hlt : (index - 1).toNat < s.vehicles.length := (List.getElem?_eq_some_iff.1 hv).1
  have hle : ¬ (index < 1 ∨ index > (s.vehicles.length : Int)) := by omega
  have hderef : s.deref u = some cu := (deref_eq_some_iff s u cu).2 ⟨hcu, hbuf⟩
  unfold CarRentalSystem.returnVehicle
  generalize (index - 1).toNat = p at *
  simp [hu, hderef, hv, hav, hle, hmem, Vehicle.getAvailability, Vehicle.returnVehicle,
    Customer.hasRented, Customer.removeRentedVehicle]

/-- Whenever `returnVehicle` reports success, all of its checks passed and the session pointer
designated a customer. -/
theorem returnVehicle_ok_inv (s : CarRentalSystem) (index : Int)
    (h : (s.returnVehicle index).1 = .ok) :
    ∃ u cu v, s.currentUser = some u ∧ s.customers[u]? = some cu ∧
      s.currentUserBuffer = s.customers.length ∧ 1 ≤ index ∧
      index ≤ (s.vehicles.length : Int) ∧ s.vehicles[(index - 1).toNat]? = some v ∧
      v.isAvailable = false ∧ some (index - 1).toNat ∈ cu.rentedVehicles := by
  unfold CarRentalSystem.returnVehicle at h
  generalize (index - 1).toNat = p at *
  cases hu : s.currentUser with
  | none => simp [hu] at h
  | some u =>
    by_cases hr : index < 1 ∨ index > (s.vehicles.length : Int)
    · simp [hu, hr] at h
    · cases hv : s.vehicles[p]? with
      | none => simp [hu, hr, hv] at h
      | some v =>
        cases hav : v.isAvailable with
        | true => simp [hu, hr, hv, hav, Vehicle.getAvailability] at h
        | false =>
          cases hcu : s.deref u with
          | none => simp [hu, hr, hv, hav, hcu, Vehicle.getAvailability] at h
          | some cu =>
            obtain ⟨h1, h2⟩ := (deref_eq_some_iff s u cu).1 hcu
            by_cases hmem : some p ∈ cu.rentedVehicles
            · exact ⟨u, cu, v, rfl, h1, h2, by omega, by omega, rfl, hav, hmem⟩
            · simp [hu, hr, hv, hav, hcu, hmem, Vehicle.getAvailability, Customer.hasRented] at h

/-- A call of `returnVehicle` that does not report success leaves the state as it was. -/
theorem returnVehicle_not_ok (s : CarRentalSystem) (index : Int)
    (h : (s.returnVehicle index).1 ≠ .ok) : (s.returnVehicle index).2 = s := by
  have key : (s.returnVehicle index).2 = s ∨ (s.returnVehicle index).1 = .ok := by
    unfold CarRentalSystem.returnVehicle
    generalize (index - 1).toNat = p
    repeat' first | exact Or.inl rfl | exact Or.inr rfl | split
  exact key.resolve_right h

/-! ## Directory scans -/

theorem usernameTaken_iff (username : String) (cs : List Customer) :
    usernameTaken username cs = true ↔ ∃ c ∈ cs, c.username = username := by
  induction cs with
  | nil => simp [usernameTaken]
  | cons c cs ih =>
    by_cases hc : c.username = username
    · simp [usernameTaken, Customer.getUsername, hc]
    · simp [usernameTaken, Customer.getUsername, hc, ih]

theorem loginScan_some (username password : String) (cs : List Customer) (k : Nat) :
    loginScan username password cs = some k ↔
      (∃ c, cs[k]? = some c ∧ c.username = username ∧ c.password = password) ∧
        ∀ j c, j < k → cs[j]? = some c → ¬ (c.username = username ∧ c.password = password) := by
  induction cs generalizing k with
  | nil => simp [loginScan]
  | cons c cs ih =>
    by_cases hc : c.username = username ∧ c.password = password
    · simp only [loginScan, Customer.getUsername, Customer.getPassword, hc, and_self, if_true]
      constructor
      · intro h
        have hk : k = 0 := by simpa using h.symm
        subst hk
        exact ⟨⟨c, by simp, hc.1, hc.2⟩, fun j _ hj => absurd hj (Nat.not_lt_zero j)⟩
      · rintro ⟨_, hfirst⟩
        cases k with
        | zero => rfl
        | succ k => exact absurd hc (hfirst 0 c (Nat.succ_pos k) (by simp))
    · simp only [loginScan, Customer.getUsername, Customer.getPassword, hc, if_false]
      cases k with
      | zero =>
        constructor
        · intro h
          simp at h
        · rintro ⟨⟨c0, h0, hu, hp⟩, _⟩
          simp at h0
          subst h0
          exact absurd ⟨hu, hp⟩ hc
      | succ k =>
        have ih' := ih k
        constructor
        · intro h
          have h' : loginScan username password cs = some k := by
            cases hs : loginScan username password cs with
            | none => simp [hs] at h
            | some m =>
              simp [hs] at h
              simp [h]
          obtain ⟨hex, hfirst⟩ := ih'.1 h'
          refine ⟨by simpa using hex, ?_⟩
          intro j cj hj hcj
          cases j with
          | zero =>
            simp at hcj
            subst hcj
            exact hc
          | succ j => exact hfirst j cj (by omega) (by simpa using hcj)
        · rintro ⟨hex, hfirst⟩
          have h' : loginScan username password cs = some k :=
            ih'.2 ⟨by simpa using hex, fun j cj hj hcj =>
              hfirst (j + 1) cj (by omega) (by simpa using hcj)⟩
          simp [h']

theorem resetScan_some (username newPassword : String) (cs cs' : List Customer)
    (h : resetScan username newPassword cs = some cs') :
    ∃ k c, cs[k]? = some c ∧ c.username = username ∧
      cs' = cs.set k { c with password := newPassword } ∧
      ∀ j cj, j < k → cs[j]? = some cj → cj.username ≠ username := by
  induction cs generalizing cs' with
  | nil => simp [resetScan] at h
  | cons c cs ih =>
    by_cases hc : c.username = username
    · simp [resetScan, Customer.getUsername, hc, Customer.setPassword] at h
      exact ⟨0, c, by simp, hc, by simp [← h, hc], fun j _ hj => absurd hj (Nat.not_lt_zero j)⟩
    · simp only [resetScan, Customer.getUsername, hc, if_false] at h
      cases hs : resetScan username newPassword cs with
      | none => simp [hs] at h
      | some cs1 =>
        simp [hs] at h
        obtain ⟨k, c1, hk, hu, hset, hfirst⟩ := ih cs1 hs
        refine ⟨k + 1, c1, by simpa using hk, hu, by simp [← h, hset], ?_⟩
        intro j cj hj hcj
        cases j with
        | zero =>
          simp at hcj
          subst hcj
          exact hc
        | succ j => exact hfirst j cj (by omega) (by simpa using hcj)

theorem rentedAt_of_getElem? (cs : List Customer) (i : Nat) (c : Customer)
    (h : cs[i]? = some c) : rentedAt cs i = c.rentedVehicles := by
  simp [rentedAt, h]

theorem rentedAt_set (cs : List Customer) (u i : Nat) (c : Customer) (hu : u < cs.length) :
    rentedAt (cs.set u c) i = if u = i then c.rentedVehicles else rentedAt cs i := by
  unfold rentedAt
  rw [List.getElem?_set]
  by_cases h : u = i
  · subst h
    simp [hu]
  · simp [h]

theorem mem_rentedAt (cs : List Customer) (i : Nat) (x : VehiclePtr) :
    x ∈ rentedAt cs i ↔ ∃ c, cs[i]? = some c ∧ x ∈ c.rentedVehicles := by
  unfold rentedAt
  cases h : cs[i]? with
  | none => simp
  | some c => simp

/-- Appending an available vehicle to the catalog keeps the state consistent. -/
theorem Consistent.addVehicle (s : CarRentalSystem) (h : Consistent s) (v : Vehicle)
    (hv : v.isAvailable = true) : Consistent { s with vehicles := s.vehicles ++ [v] } := by
  refine ⟨h.session, h.nodup, h.owner, ?_, ?_⟩
  · intro i x hx
    obtain ⟨p, w, hp, hw, hav⟩ := h.rented i x hx
    refine ⟨p, w, hp, ?_, hav⟩
    show (s.vehicles ++ [v])[p]? = some w
    rw [List.getElem?_append_left (List.getElem?_eq_some_iff.1 hw).1]
    exact hw
  · intro p w hw hav
    have hw' : (s.vehicles ++ [v])[p]? = some w := hw
    rw [List.getElem?_append] at hw'
    by_cases hp : p < s.vehicles.length
    · rw [if_pos hp] at hw'
      exact h.held p w hw' hav
    · rw [if_neg hp] at hw'
      have : w = v := by
        have := List.mem_iff_getElem?.2 ⟨_, hw'⟩
        simpa using this
      rw [this, hv] at hav
      exact absurd hav (by simp)

/-- The success path of `rentVehicle` keeps the state consistent. -/
theorem Consistent.rent (s : CarRentalSystem) (h : Consistent s) (u p : Nat) (cu : Customer)
    (v : Vehicle) (b : Booking) (hcu : s.customers[u]? = some cu)
    (hv : s.vehicles[p]? = some v) (hav : v.isAvailable = true) :
    Consistent { s with
      vehicles := s.vehicles.set p { v with isAvailable := false },
      customers := s.customers.set u
        { cu with
          rentedVehicles := cu.rentedVehicles ++ [some p],
          bookingHistory := cu.bookingHistory ++ [b] } } := by
  have hu : u < s.customers.length := (List.getElem?_eq_some_iff.1 hcu).1
  have hp : p < s.vehicles.length := (List.getElem?_eq_some_iff.1 hv).1
  have hcur : rentedAt s.customers u = cu.rentedVehicles := rentedAt_of_getElem? _ _ _ hcu
  have hfree : ∀ i, some p ∉ rentedAt s.customers i := by
    intro i hi
    obtain ⟨q, w, hq, hw, hwav⟩ := h.rented i _ hi
    have hqp : p = q := by simpa using hq
    subst hqp
    rw [hv] at hw
    have : v = w := by simpa using hw
    rw [this, hwav] at hav
    exact absurd hav (by simp)
  refine ⟨?_, ?_, ?_, ?_, ?_⟩
  · intro w hw
    simpa using h.session w hw
  · intro i
    show (rentedAt (s.customers.set u _) i).Nodup
    rw [rentedAt_set _ _ _ _ hu]
    by_cases hi : u = i
    · rw [if_pos hi]
      have h1 := h.nodup u
      have h2 := hfree u
      rw [hcur] at h1 h2
      exact List.Nodup.append h1 (List.nodup_singleton _) (by simpa using h2)
    · rw [if_neg hi]
      exact h.nodup i
  · intro i j x
    show x ∈ rentedAt (s.customers.set u _) i → x ∈ rentedAt (s.customers.set u _) j → i = j
    rw [rentedAt_set _ _ _ _ hu, rentedAt_set _ _ _ _ hu]
    by_cases hi : u = i <;> by_cases hj : u = j
    · intro _ _
      rw [← hi, ← hj]
    · rw [if_pos hi, if_neg hj]
      simp only [List.mem_append, List.mem_singleton]
      rintro (h1 | h1) h2
      · exact h.owner i j x (by rw [← hi, hcur]; exact h1) h2
      · exact absurd (h1 ▸ h2) (hfree j)
    · rw [if_neg hi, if_pos hj]
      simp only [List.mem_append, List.mem_singleton]
      rintro h1 (h2 | h2)
      · exact h.owner i j x h1 (by rw [← hj, hcur]; exact h2)
      · exact absurd (h2 ▸ h1) (hfree i)
    · rw [if_neg hi, if_neg hj]
      exact h.owner i j x
  · intro i x
    show x ∈ rentedAt (s.customers.set u _) i →
      ∃ q w, x = some q ∧ (s.vehicles.set p _)[q]? = some w ∧ w.isAvailable = false
    rw [rentedAt_set _ _ _ _ hu]
    have old : x ∈ rentedAt s.customers i →
        ∃ q w, x = some q ∧
          (s.vehicles.set p { v with isAvailable := false })[q]? = some w ∧
          w.isAvailable = false := by
      intro hx
      obtain ⟨q, w, hq, hw, hwav⟩ := h.rented i x hx
      by_cases hpq : p = q
      · exact ⟨q, { v with isAvailable := false }, hq, by simp [← hpq, hp], rfl⟩
      · exact ⟨q, w, hq, by rw [List.getElem?_set_ne hpq]; exact hw, hwav⟩
    by_cases hi : u = i
    · rw [if_pos hi]
      simp only [List.mem_append, List.mem_singleton]
      rintro (h1 | h1)
      · exact old (by rw [← hi, hcur]; exact h1)
      · exact ⟨p, { v with isAvailable := false }, h1, by simp [hp], rfl⟩
    · rw [if_neg hi]
      exact old
  · intro q w
    show (s.vehicles.set p _)[q]? = some w → w.isAvailable = false →
      ∃ i, some q ∈ rentedAt (s.customers.set u _) i
    intro hw hwav
    by_cases hpq : p = q
    · refine ⟨u, ?_⟩
      rw [rentedAt_set _ _ _ _ hu]
      simp [hpq]
    · rw [List.getElem?_set_ne hpq] at hw
      obtain ⟨i, hi⟩ := h.held q w hw hwav
      refine ⟨i, ?_⟩
      rw [rentedAt_set _ _ _ _ hu]
      by_cases hui : u = i
      · rw [if_pos hui]
        simp only [List.mem_append, List.mem_singleton]
        left
        rw [← hcur, hui]
        exact hi
      · rw [if_neg hui]
        exact hi

theorem reachable_run (s : CarRentalSystem) (ops : List Op) (h : Reachable s) :
    Reachable (run s ops) := by
  induction ops generalizing s with
  | nil => exact h
  | cons op ops ih => exact ih (step s op) (Reachable.step s op h)

/-! ## Calls made through a dangling `currentUser` -/

/-- C1, at the failing input `registerCustomer("Alice", "alice", "pw1")`,
`loginCustomer("alice", "pw1")`, `registerCustomer("Bob", "bob", "pw2")`, `rentVehicle(1, 3)`:
the state before the last call is reachable, its session pointer is non-null but points into the
buffer the vector gave up at Bob's `push_back`; `rentVehicle` passes its four checks, clears the
flag of vehicle 1 and then accesses an object that no longer exists, so the call does not
succeed; at that access vehicle 1 is unavailable and no customer of the directory has it in the
rented vector. -/
theorem stale_session_rent_leaves_vehicle_without_renter :
    Reachable staleSession ∧
    staleSession.currentUser = some 0 ∧ staleSession.currentUserBuffer = 1 ∧
    staleSession.customers.length = 2 ∧ staleSession.deref 0 = none ∧
    (staleSession.rentVehicle 1 3).1 = .undefinedBehaviour ∧
    (∃ (catalog : List Vehicle) (v : Vehicle),
      staleSession.catalogAtRentAccess 1 3 = some catalog ∧ catalog[0]? = some v ∧
      v.isAvailable = false ∧
      ∀ c ∈ staleSession.customers, some 0 ∉ c.rentedVehicles) := by
  refine ⟨reachable_run _ _ Reachable.init, by decide, by decide, by decide, by decide,
    by decide, ⟨_, _, rfl, rfl, rfl, by decide⟩⟩

/-! ## `rentVehicle` -/

/-- C2, as the code has it: in a state whose session pointer designates customer `cu` at
position `u` of the directory (no `push_back` since it was set), for an index
`1 ≤ index ≤ vehicles.size()` whose vehicle `v` is available and `1 ≤ days ≤ 30`,
`rentVehicle(index, days)` succeeds; afterwards the vehicle at that index is `v` with the flag
false, the session customer keeps name, username and password, has the vehicle in the rented
vector, and has the old booking history followed by exactly one booking, which refers to the
vehicle, has the given days and has as `totalCost` the `double` product of `v.pricePerDay` and
`days` (the exact product rounded to the nearest `double`); every other vehicle, every other
customer, the feedback log and the session are unchanged. -/
theorem rentVehicle_success (s : CarRentalSystem) (index days : Int) (u : Nat) (cu : Customer)
    (v : Vehicle) (hu : s.currentUser = some u) (hcu : s.deref u = some cu)
    (h1 : 1 ≤ index) (h2 : index ≤ (s.vehicles.length : Int))
    (hv : s.vehicles[(index - 1).toNat]? = some v) (hav : v.isAvailable = true)
    (hd1 : 1 ≤ days) (hd2 : days ≤ 30) :
    (s.rentVehicle index days).1 = .ok ∧
    (s.rentVehicle index days).2.vehicles[(index - 1).toNat]? =
      some { v with isAvailable := false } ∧
    (∃ cu' b, (s.rentVehicle index days).2.customers[u]? = some cu' ∧
      cu'.name = cu.name ∧ cu'.username = cu.username ∧ cu'.password = cu.password ∧
      some (index - 1).toNat ∈ cu'.rentedVehicles ∧
      cu'.rentedVehicles = cu.rentedVehicles ++ [some (index - 1).toNat] ∧
      cu'.bookingHistory = cu.bookingHistory ++ [b] ∧
      b.vehicle = some (index - 1).toNat ∧ b.days = days ∧
      b.totalCost = Double.mulInt v.pricePerDay days) ∧
    (s.rentVehicle index days).2.vehicles.length = s.vehicles.length ∧
    (∀ q, q ≠ (index - 1).toNat →
      (s.rentVehicle index days).2.vehicles[q]? = s.vehicles[q]?) ∧
    (s.rentVehicle index days).2.customers.length = s.customers.length ∧
    (∀ w, w ≠ u → (s.rentVehicle index days).2.customers[w]? = s.customers[w]?) ∧
    (s.rentVehicle index days).2.feedbacks = s.feedbacks ∧
    (s.rentVehicle index days).2.currentUser = s.currentUser ∧
    (s.rentVehicle index days).2.deref u = (s.rentVehicle index days).2.customers[u]? := by
  obtain ⟨hcu', hbuf⟩ := (deref_eq_some_iff s u cu).1 hcu
  have hlt : (index - 1).toNat < s.vehicles.length := (List.getElem?_eq_some_iff.1 hv).1
  have hult : u < s.customers.length := (List.getElem?_eq_some_iff.1 hcu').1
  have _ := h2
  rw [rentVehicle_ok s index days u cu v hu hcu' hbuf h1 hv hav hd1 hd2]
  refine ⟨rfl, ?_, ?_, ?_, ?_, ?_, ?_, rfl, rfl, ?_⟩
  · exact List.getElem?_set_self hlt
  · exact ⟨_, _, List.getElem?_set_self hult, rfl, rfl, rfl, by simp, rfl, rfl, rfl, rfl, rfl⟩
  · exact List.length_set _ _ _
  · intro q hq
    exact List.getElem?_set_ne (Ne.symm hq)
  · exact List.length_set _ _ _
  · intro w hw
    exact List.getElem?_set_ne (Ne.symm hw)
  · simp [CarRentalSystem.deref, hbuf]

theorem rentVehicle_success_witness :
    (aliceLoggedIn.rentVehicle 2 7).1 = .ok ∧
    (aliceLoggedIn.rentVehicle 2 7).2.vehicles[1]? =
      some { Vehicle.new .SUV "Honda" "CR-V" 65 with isAvailable := false } ∧
    (∃ cu' b, (aliceLoggedIn.rentVehicle 2 7).2.customers[0]? = some cu' ∧
      cu'.name = "Alice" ∧ cu'.username = "alice" ∧ cu'.password = "pw1" ∧
      some 1 ∈ cu'.rentedVehicles ∧
      cu'.rentedVehicles = [] ++ [some 1] ∧
      cu'.bookingHistory = [] ++ [b] ∧
      b.vehicle = some 1 ∧ b.days = 7 ∧ b.totalCost = Double.mulInt 65 7) ∧
    (aliceLoggedIn.rentVehicle 2 7).2.vehicles.length = aliceLoggedIn.vehicles.length ∧
    (∀ q, q ≠ 1 → (aliceLoggedIn.rentVehicle 2 7).2.vehicles[q]? = aliceLoggedIn.vehicles[q]?) ∧
    (aliceLoggedIn.rentVehicle 2 7).2.customers.length = aliceLoggedIn.customers.length ∧
    (∀ w, w ≠ 0 →
      (aliceLoggedIn.rentVehicle 2 7).2.customers[w]? = aliceLoggedIn.customers[w]?) ∧
    (aliceLoggedIn.rentVehicle 2 7).2.feedbacks = aliceLoggedIn.feedbacks ∧
    (aliceLoggedIn.rentVehicle 2 7).2.currentUser = aliceLoggedIn.currentUser ∧
    (aliceLoggedIn.rentVehicle 2 7).2.deref 0 = (aliceLoggedIn.rentVehicle 2 7).2.customers[0]? :=
  rentVehicle_success aliceLoggedIn 2 7 0 (Customer.new "Alice" "alice" "pw1")
    (Vehicle.new .SUV "Honda" "CR-V" 65) (by decide) (by decide) (by decide) (by decide)
    (by decide) (by decide) (by decide) (by decide)

/-- C2, as the specification has it, fails twice. With a vehicle priced at the `double` nearest
to 0.1, `rentVehicle(4, 3)` succeeds and records `totalCost = 0x1.3333333333334p-2`, which is
not the product of the price and 3. And in the state reached by register, login, register the
session is active (`currentUser` is non-null), index 1 is valid, its vehicle is available and 3
days are allowed, yet `rentVehicle(1, 3)` does not succeed. -/
theorem rentVehicle_cost_rounded_or_session_stale :
    ((tenthSession.rentVehicle 4 3).1 = .ok ∧
      (∃ v, tenthSession.vehicles[3]? = some v ∧ v.pricePerDay = oneTenth) ∧
      (tenthSession.rentVehicle 4 3).2.customers.map Customer.bookingHistory =
        [[{ vehicle := some 3, days := 3,
            totalCost := .finite (1351079888211149 / 4503599627370496) }]] ∧
      (1351079888211149 / 4503599627370496 : ℚ) ≠ oneTenth * 3) ∧
    (staleSession.currentUser = some 0 ∧
      (∃ v, staleSession.vehicles[0]? = some v ∧ v.isAvailable = true) ∧
      (staleSession.rentVehicle 1 3).1 ≠ .ok) := by
  refine ⟨⟨by decide, ⟨_, rfl, rfl⟩, by decide!, by decide!⟩, by decide, ⟨_, rfl, rfl⟩,
    by decide⟩

/-- C4, at the failing input `registerCustomer("Alice", "alice", "pw1")`,
`loginCustomer("alice", "pw1")`, `registerCustomer("Bob", "bob", "pw2")`, `rentVehicle(2, 30)`:
the call is in the remaining case of the claim (a session is active, index 2 is valid, its
vehicle is available, 30 days are allowed), yet it does not succeed: after its four checks it
accesses the customer through the dangling session pointer. -/
theorem stale_session_rent_remaining_case :
    staleSession.currentUser ≠ none ∧
    (1 : Int) ≤ 2 ∧ (2 : Int) ≤ (staleSession.vehicles.length : Int) ∧
    (∃ v, staleSession.vehicles[((2 : Int) - 1).toNat]? = some v ∧ v.isAvailable = true) ∧
    (1 : Int) ≤ 30 ∧ (30 : Int) ≤ 30 ∧
    (staleSession.rentVehicle 2 30).1 = .undefinedBehaviour ∧
    (staleSession.rentVehicle 2 30).1 ≠ .ok := by
  refine ⟨by decide, by decide, by decide, ⟨_, rfl, rfl⟩, by decide, by decide, by decide,
    by decide⟩

/-! ## `returnVehicle` -/

/-- C5, at the failing input `registerCustomer("Alice", "alice", "pw1")`,
`loginCustomer("alice", "pw1")`, `rentVehicle(1, 3)`, `registerCustomer("Bob", "bob", "pw2")`,
`returnVehicle(1)`: a session is active, index 1 is valid, vehicle 1 is unavailable and the
session customer Alice has it in her rented vector, so the claim promises success; the call
reports neither success nor NotYourRental: its ownership check reads the rented vector through
the dangling session pointer. -/
theorem stale_session_return_ownership_check :
    staleSessionRented.currentUser = some 0 ∧
    (∃ v, staleSessionRented.vehicles[((1 : Int) - 1).toNat]? = some v ∧
      v.isAvailable = false) ∧
    (∃ c, staleSessionRented.customers[0]? = some c ∧ c.username = "alice" ∧
      some 0 ∈ c.rentedVehicles) ∧
    staleSessionRented.deref 0 = none ∧
    (staleSessionRented.returnVehicle 1).1 = .undefinedBehaviour ∧
    (staleSessionRented.returnVehicle 1).1 ≠ .ok ∧
    (staleSessionRented.returnVehicle 1).1 ≠ .NotYourRental := by
  refine ⟨by decide, ⟨_, rfl, rfl⟩, ?_, by decide, by decide, by decide, by decide⟩
  have h : staleSessionRented.customers.map Customer.username = ["alice", "bob"] := by decide
  have h2 : staleSessionRented.customers.map Customer.rentedVehicles = [[some 0], []] := by
    decide
  cases hc : staleSessionRented.customers with
  | nil => simp [hc] at h
  | cons c cs =>
    rw [hc] at h h2
    simp only [List.map_cons, List.cons.injEq] at h h2
    exact ⟨c, by simp, h.1, by rw [h2.1]; simp⟩

/-- C7, at the failing input `registerCustomer("Alice", "alice", "pw1")`,
`loginCustomer("alice", "pw1")`, `registerCustomer("Bob", "bob", "pw2")`, `rentVehicle(3, 5)`,
`returnVehicle(3)`: the state before the rent is reachable, has an active session, and vehicle 3
is available, yet the rent does not succeed (it accesses the customer through the dangling
session pointer), and neither does the return that follows. -/
theorem stale_session_rent_then_return :
    Reachable staleSession ∧ staleSession.currentUser = some 0 ∧
    (∃ v, staleSession.vehicles[((3 : Int) - 1).toNat]? = some v ∧ v.isAvailable = true) ∧
    (staleSession.rentVehicle 3 5).1 = .undefinedBehaviour ∧
    ((staleSession.rentVehicle 3 5).2.returnVehicle 3).1 ≠ .ok := by
  refine ⟨reachable_run _ _ Reachable.init, by decide, ⟨_, rfl, rfl⟩, by decide, by decide⟩

/-! ## The customer directory -/

/-- C8: `registerCustomer(name, username, password)` reports DuplicateUsername if and only if
some customer of the directory has exactly that username (equality of strings, so upper and lower
case differ); in that case the state is unchanged; otherwise it succeeds and the directory is the
old one followed by one new customer with the given name, username and password, an empty booking
history and an empty rented vector, the rest of the state being unchanged, and a second
registration of the same username then reports DuplicateUsername whatever name and password it is
given. -/
theorem registerCustomer_duplicate_iff (s : CarRentalSystem) (name username password : String) :
    ((s.registerCustomer name username password).1 = .DuplicateUsername ↔
      ∃ c ∈ s.customers, c.username = username) ∧
    ((∃ c ∈ s.customers, c.username = username) →
      (s.registerCustomer name username password).2 = s) ∧
    ((¬ ∃ c ∈ s.customers, c.username = username) →
      (s.registerCustomer name username password).1 = .ok ∧
      (s.registerCustomer name username password).2 =
        { s with customers := s.customers ++
          [{ name := name, username := username, password := password,
             bookingHistory := [], rentedVehicles := [] }] } ∧
      ∀ name2 password2,
        ((s.registerCustomer name username password).2.registerCustomer
          name2 username password2).1 = .DuplicateUsername) := by
  have ht := usernameTaken_iff username s.customers
  by_cases hex : ∃ c ∈ s.customers, c.username = username
  · have h1 : usernameTaken username s.customers = true := ht.2 hex
    refine ⟨?_, ?_, fun hn => absurd hex hn⟩
    · simp [CarRentalSystem.registerCustomer, h1, hex]
    · intro _
      simp [CarRentalSystem.registerCustomer, h1]
  · have h1 : usernameTaken username s.customers = false := by
      cases hb : usernameTaken username s.customers with
      | false => rfl
      | true => exact absurd (ht.1 hb) hex
    refine ⟨?_, fun hy => absurd hy hex, fun _ => ⟨?_, ?_, ?_⟩⟩
    · simp [CarRentalSystem.registerCustomer, h1, hex]
    · simp [CarRentalSystem.registerCustomer, h1]
    · simp [CarRentalSystem.registerCustomer, h1, Customer.new]
    · intro name2 password2
      have h2 : usernameTaken username
          (s.customers ++ [Customer.new name username password]) = true :=
        (usernameTaken_iff _ _).2 ⟨Customer.new name username password, by simp, rfl⟩
      simp [CarRentalSystem.registerCustomer, h1, h2]

theorem registerCustomer_duplicate_iff_witness :
    (aliceRegistered.registerCustomer "Eve" "alice" "x").1 = .DuplicateUsername ∧
    (aliceRegistered.registerCustomer "Eve" "alice" "x").2 = aliceRegistered ∧
    (aliceRegistered.registerCustomer "Eve" "Alice" "x").1 = .ok ∧
    (aliceRegistered.registerCustomer "Eve" "Alice" "x").2 =
      { aliceRegistered with customers := aliceRegistered.customers ++
        [{ name := "Eve", username := "Alice", password := "x",
           bookingHistory := [], rentedVehicles := [] }] } ∧
    ((aliceRegistered.registerCustomer "Eve" "Alice" "x").2.registerCustomer
      "Mallory" "Alice" "y").1 = .DuplicateUsername :=
  ⟨(registerCustomer_duplicate_iff aliceRegistered "Eve" "alice" "x").1.2 (by decide),
    (registerCustomer_duplicate_iff aliceRegistered "Eve" "alice" "x").2.1 (by decide),
    ((registerCustomer_duplicate_iff aliceRegistered "Eve" "Alice" "x").2.2 (by decide)).1,
    ((registerCustomer_duplicate_iff aliceRegistered "Eve" "Alice" "x").2.2 (by decide)).2.1,
    ((registerCustomer_duplicate_iff aliceRegistered "Eve" "Alice" "x").2.2 (by decide)).2.2
      "Mallory" "y"⟩

theorem usernamesUnique_append (s : CarRentalSystem) (c : Customer) (h : usernamesUnique s)
    (hc : ∀ d ∈ s.customers, d.username ≠ c.username) :
    usernamesUnique { s with customers := s.customers ++ [c] } := by
  have last : ∀ i ci, (s.customers ++ [c])[i]? = some ci → ¬ i < s.customers.length →
      i = s.customers.length ∧ ci = c := by
    intro i ci hi hlt
    rw [List.getElem?_append, if_neg hlt] at hi
    have hlen := (List.getElem?_eq_some_iff.1 hi).1
    have hmem := List.mem_iff_getElem?.2 ⟨_, hi⟩
    simp only [List.length_singleton] at hlen
    exact ⟨by omega, by simpa using hmem⟩
  intro i j ci cj hi hj hij
  have hi' : (s.customers ++ [c])[i]? = some ci := hi
  have hj' : (s.customers ++ [c])[j]? = some cj := hj
  by_cases hil : i < s.customers.length <;> by_cases hjl : j < s.customers.length
  · rw [List.getElem?_append_left hil] at hi'
    rw [List.getElem?_append_left hjl] at hj'
    exact h i j ci cj hi' hj' hij
  · rw [List.getElem?_append_left hil] at hi'
    obtain ⟨_, hcj⟩ := last j cj hj' hjl
    exact absurd (hij.trans (by rw [hcj])) (hc ci (List.mem_iff_getElem?.2 ⟨i, hi'⟩))
  · rw [List.getElem?_append_left hjl] at hj'
    obtain ⟨_, hci⟩ := last i ci hi' hil
    exact absurd (hij.symm.trans (by rw [hci])) (hc cj (List.mem_iff_getElem?.2 ⟨j, hj'⟩))
  · rw [(last i ci hi' hil).1, (last j cj hj' hjl).1]

theorem usernamesUnique_set (s : CarRentalSystem) (k : Nat) (c c' : Customer)
    (h : usernamesUnique s) (hk : s.customers[k]? = some c) (hc : c'.username = c.username) :
    usernamesUnique { s with customers := s.customers.set k c' } := by
  have back : ∀ (i : Nat) (ci : Customer), (s.customers.set k c')[i]? = some ci →
      ∃ di : Customer, s.customers[i]? = some di ∧ di.username = ci.username := by
    intro i ci hi
    by_cases hki : k = i
    · subst hki
      rw [List.getElem?_set_self (List.getElem?_eq_some_iff.1 hk).1] at hi
      have : c' = ci := by simpa using hi
      exact ⟨c, hk, by rw [← this, hc]⟩
    · rw [List.getElem?_set_ne hki] at hi
      exact ⟨ci, hi, rfl⟩
  intro i j ci cj hi hj hij
  obtain ⟨di, hdi, hui⟩ := back i ci hi
  obtain ⟨dj, hdj, huj⟩ := back j cj hj
  exact h i j di dj hdi hdj (by rw [hui, huj, hij])

theorem usernamesUnique_step (s : CarRentalSystem) (op : Op) (h : usernamesUnique s) :
    usernamesUnique (step s op) := by
  cases op with
  | registerCustomer n u p =>
    show usernamesUnique (s.registerCustomer n u p).2
    unfold CarRentalSystem.registerCustomer
    split
    · exact h
    · rename_i ht
      refine usernamesUnique_append s _ h ?_
      intro d hd hdu
      exact ht ((usernameTaken_iff u s.customers).2 ⟨d, hd, hdu⟩)
  | loginCustomer u p =>
    show usernamesUnique (s.loginCustomer u p).2
    unfold CarRentalSystem.loginCustomer
    split
    · exact h
    · exact h
  | resetPassword u p =>
    show usernamesUnique (s.resetPassword u p).2
    unfold CarRentalSystem.resetPassword
    split
    · rename_i cs hcs
      obtain ⟨k, c, hk, _, hset, _⟩ := resetScan_some u p s.customers cs hcs
      rw [hset]
      exact usernamesUnique_set s k c _ h hk rfl
    · exact h
  | addVehicle t b m p =>
    show usernamesUnique (s.addVehicle t b m p)
    unfold CarRentalSystem.addVehicle
    repeat' split
    all_goals exact h
  | rentVehicle i d =>
    show usernamesUnique (s.rentVehicle i d).2
    by_cases hok : (s.rentVehicle i d).1 = .ok
    · obtain ⟨u, cu, v, hu, hcu, hbuf, h1, _, hv, hav, hd1, hd2⟩ := rentVehicle_ok_inv s i d hok
      rw [rentVehicle_ok s i d u cu v hu hcu hbuf h1 hv hav hd1 hd2]
      exact usernamesUnique_set s u cu _ h hcu rfl
    · rw [rentVehicle_not_ok s i d hok]
      exact h
  | returnVehicle i =>
    show usernamesUnique (s.returnVehicle i).2
    by_cases hok : (s.returnVehicle i).1 = .ok
    · obtain ⟨u, cu, v, hu, hcu, hbuf, h1, _, hv, hav, hmem⟩ := returnVehicle_ok_inv s i hok
      rw [returnVehicle_ok s i u cu v hu hcu hbuf h1 hv hav hmem]
      exact usernamesUnique_set s u cu _ h hcu rfl
    · rw [returnVehicle_not_ok s i hok]
      exact h
  | giveFeedback c =>
    show usernamesUnique (s.giveFeedback c).2
    unfold CarRentalSystem.giveFeedback
    repeat' split
    all_goals exact h

/-- C9: in every state reachable from the freshly constructed system no two distinct positions
of the directory hold customers with the same username, and each of the seven methods preserves
this property, from whatever state it is called. -/
theorem usernames_unique :
    (∀ s, Reachable s → ∀ (i j : Nat) (ci cj : Customer), s.customers[i]? = some ci →
      s.customers[j]? = some cj → ci.username = cj.username → i = j) ∧
    (∀ s op, usernamesUnique s → usernamesUnique (step s op)) := by
  refine ⟨?_, usernamesUnique_step⟩
  intro s h
  show usernamesUnique s
  induction h with
  | init =>
    intro i j ci cj hi
    simp [CarRentalSystem.new] at hi
  | step s op _ ih => exact usernamesUnique_step s op ih

theorem usernames_unique_witness :
    Reachable twoRegistered ∧
    twoRegistered.customers[0]? = some (Customer.new "Alice" "alice" "pw1") ∧
    twoRegistered.customers[1]? = some (Customer.new "Bob" "bob" "pw2") ∧
    ((Customer.new "Alice" "alice" "pw1").username = (Customer.new "Bob" "bob" "pw2").username →
      0 = 1) :=
  ⟨reachable_run _ _ Reachable.init, by decide, by decide,
    usernames_unique.1 twoRegistered (reachable_run _ _ Reachable.init) 0 1
      (Customer.new "Alice" "alice" "pw1") (Customer.new "Bob" "bob" "pw2") (by decide)
      (by decide)⟩

/-- C12: from the freshly constructed system, whose catalog holds Sedan Toyota Camry at 50, SUV
Honda CR-V at 65 and Truck Ford F-150 at 80, all available: `registerCustomer("Alice", "alice",
"pw1")` succeeds, `loginCustomer("alice", "pw1")` succeeds, `rentVehicle(1, 3)` succeeds and
records one booking with `days = 3` and `totalCost = 150`; the available listing then shows
exactly the indices 2 and 3, not 1; a further `rentVehicle(1, 2)` reports AlreadyRented. -/
theorem scenario_alice_rents_camry :
    CarRentalSystem.new.vehicles =
      [ { kind := .Sedan, brand := "Toyota", model := "Camry", pricePerDay := 50,
          isAvailable := true },
        { kind := .SUV, brand := "Honda", model := "CR-V", pricePerDay := 65,
          isAvailable := true },
        { kind := .Truck, brand := "Ford", model := "F-150", pricePerDay := 80,
          isAvailable := true } ] ∧
    CarRentalSystem.new.registerCustomer "Alice" "alice" "pw1" = (.ok, aliceRegistered) ∧
    aliceRegistered.loginCustomer "alice" "pw1" = (.ok, aliceLoggedIn) ∧
    aliceLoggedIn.rentVehicle 1 3 = (.ok, aliceRents) ∧
    aliceRents.customers.map Customer.bookingHistory =
      [[{ vehicle := some 0, days := 3, totalCost := 150 }]] ∧
    aliceRents.displayAvailableVehicles =
      [ (2, { kind := .SUV, brand := "Honda", model := "CR-V", pricePerDay := 65,
              isAvailable := true }),
        (3, { kind := .Truck, brand := "Ford", model := "F-150", pricePerDay := 80,
              isAvailable := true }) ] ∧
    aliceRents.rentVehicle 1 2 = (.AlreadyRented, aliceRents) := by
  refine ⟨rfl, rfl, rfl, rfl, by decide!, rfl, rfl⟩

/-! ## One call, one effect -/

/-- Every call of a method either leaves the state as it was or performs exactly one of the
mutations listed in `Effect`. -/
theorem step_effect (s : CarRentalSystem) (op : Op) : Effect s (step s op) := by
  cases op with
  | registerCustomer n u p =>
    show Effect s (s.registerCustomer n u p).2
    unfold CarRentalSystem.registerCustomer
    split
    · exact Effect.unchanged
    · rename_i ht
      refine Effect.registered (Customer.new n u p) rfl rfl ?_
      intro d hd hdu
      exact ht ((usernameTaken_iff u s.customers).2 ⟨d, hd, hdu⟩)
  | loginCustomer u p =>
    show Effect s (s.loginCustomer u p).2
    unfold CarRentalSystem.loginCustomer
    split
    · rename_i k hk
      obtain ⟨⟨c, hc, _⟩, _⟩ := (loginScan_some u p s.customers k).1 hk
      exact Effect.loggedIn k (List.getElem?_eq_some_iff.1 hc).1
    · exact Effect.unchanged
  | resetPassword u p =>
    show Effect s (s.resetPassword u p).2
    unfold CarRentalSystem.resetPassword
    split
    · rename_i cs hcs
      obtain ⟨k, c, hk, _, hset, _⟩ := resetScan_some u p s.customers cs hcs
      rw [hset]
      exact Effect.passwordSet k c p hk
    · exact Effect.unchanged
  | addVehicle t b m p =>
    show Effect s (s.addVehicle t b m p)
    unfold CarRentalSystem.addVehicle
    split
    · exact Effect.vehicleAdded _ rfl
    · split
      · exact Effect.vehicleAdded _ rfl
      · split
        · exact Effect.vehicleAdded _ rfl
        · exact Effect.unchanged
  | rentVehicle i d =>
    show Effect s (s.rentVehicle i d).2
    by_cases hok : (s.rentVehicle i d).1 = .ok
    · obtain ⟨u, cu, v, hu, hcu, hbuf, h1, _, hv, hav, hd1, hd2⟩ := rentVehicle_ok_inv s i d hok
      rw [rentVehicle_ok s i d u cu v hu hcu hbuf h1 hv hav hd1 hd2]
      exact Effect.rented u _ cu v d hu hcu hv hav hd1 hd2
    · rw [rentVehicle_not_ok s i d hok]
      exact Effect.unchanged
  | returnVehicle i =>
    show Effect s (s.returnVehicle i).2
    by_cases hok : (s.returnVehicle i).1 = .ok
    · obtain ⟨u, cu, v, hu, hcu, hbuf, h1, _, hv, hav, hmem⟩ := returnVehicle_ok_inv s i hok
      rw [returnVehicle_ok s i u cu v hu hcu hbuf h1 hv hav hmem]
      exact Effect.returned u _ cu v hu hcu hv hav hmem
    · rw [returnVehicle_not_ok s i hok]
      exact Effect.unchanged
  | giveFeedback c =>
    show Effect s (s.giveFeedback c).2
    unfold CarRentalSystem.giveFeedback
    split
    · rename_i u hu
      split
      · rename_i cu hcu
        exact Effect.feedbackGiven u cu c hu ((deref_eq_some_iff s u cu).1 hcu).1
      · exact Effect.unchanged
    · exact Effect.unchanged

/-- An invariant that holds initially and survives every effect holds in every reachable
state. -/
theorem Reachable.induction_effect (P : CarRentalSystem → Prop) (h0 : P CarRentalSystem.new)
    (hstep : ∀ s t, Reachable s → P s → Effect s t → P t) (s : CarRentalSystem)
    (h : Reachable s) : P s := by
  induction h with
  | init => exact h0
  | step s op hs ih => exact hstep s _ hs ih (step_effect s op)

/-! ## The feedback log -/

/-- C13, as the code has it: `giveFeedback(comment)` requires an active session and does not look
at the username, which may be empty. Without a session it reports NotAuthenticated and leaves the
state, the log included, unchanged. With a session pointer that designates customer `cu` of the
directory it appends exactly one entry `(cu.username, comment)` at the end of the log, for every
comment, the empty one included, and leaves the earlier entries and the rest of the state
unchanged. -/
theorem giveFeedback_appends :
    (∀ (s : CarRentalSystem) (comment : String), s.currentUser = none →
      s.giveFeedback comment = (.NotAuthenticated, s)) ∧
    (∀ (s : CarRentalSystem) (comment : String) (u : Nat) (cu : Customer),
      s.currentUser = some u → s.deref u = some cu →
      s.giveFeedback comment =
        (.ok, { s with
          feedbacks := s.feedbacks ++ [{ username := cu.username, comment := comment }] })) := by
  refine ⟨?_, ?_⟩
  · intro s comment hu
    simp [CarRentalSystem.giveFeedback, hu]
  · intro s comment u cu hu hcu
    simp [CarRentalSystem.giveFeedback, hu, hcu, Feedback.new, Customer.getUsername]

theorem giveFeedback_appends_witness :
    CarRentalSystem.new.giveFeedback "great" = (.NotAuthenticated, CarRentalSystem.new) ∧
    aliceLoggedIn.giveFeedback "" =
      (.ok, { aliceLoggedIn with
        feedbacks := aliceLoggedIn.feedbacks ++ [{ username := "alice", comment := "" }] }) :=
  ⟨giveFeedback_appends.1 CarRentalSystem.new "great" (by decide),
    giveFeedback_appends.2 aliceLoggedIn "" 0 (Customer.new "Alice" "alice" "pw1")
      (by decide) (by decide)⟩

/-- C13, as the specification has it, fails: a customer registered under the empty username has
an active session, `giveFeedback` succeeds for that customer, and the entry it stores has an
empty username; and in the state reached by register, login, register the session is active
(`currentUser` is non-null), yet `giveFeedback` appends no entry with the session customer's
username: it reads the username through the dangling session pointer. -/
theorem giveFeedback_empty_username :
    Reachable emptyUsernameSession ∧
    emptyUsernameSession.currentUser = some 0 ∧
    emptyUsernameSession.customers[0]? = some (Customer.new "Nobody" "" "pw") ∧
    (emptyUsernameSession.giveFeedback "hello").1 = .ok ∧
    (emptyUsernameSession.giveFeedback "hello").2.feedbacks =
      [{ username := "", comment := "hello" }] ∧
    ¬ (∀ s : CarRentalSystem, Reachable s → ∀ f ∈ s.feedbacks, f.username ≠ "") ∧
    staleSession.currentUser = some 0 ∧
    (staleSession.giveFeedback "hello").1 = .undefinedBehaviour := by
  refine ⟨reachable_run _ _ Reachable.init, by decide, by decide, by decide, by decide, ?_,
    by decide, by decide⟩
  intro hall
  exact hall (step emptyUsernameSession (.giveFeedback "hello"))
    (Reachable.step _ _ (reachable_run _ _ Reachable.init))
    { username := "", comment := "hello" } (by decide) rfl

/-! ## The available listing -/

theorem displayAvailableFrom_eq_filter (index : Nat) (vs : List Vehicle) :
    displayAvailableFrom index vs =
      (vs.enumFrom index).filter (fun iv => iv.2.isAvailable) := by
  induction vs generalizing index with
  | nil => rfl
  | cons v vs ih =>
    cases hav : v.isAvailable with
    | true => simp [displayAvailableFrom, Vehicle.getAvailability, hav, ih]
    | false => simp [displayAvailableFrom, Vehicle.getAvailability, hav, ih]

theorem mem_displayAvailableVehicles (s : CarRentalSystem) (i : Nat) (v : Vehicle) :
    (i, v) ∈ s.displayAvailableVehicles ↔
      1 ≤ i ∧ s.vehicles[i - 1]? = some v ∧ v.isAvailable = true := by
  unfold CarRentalSystem.displayAvailableVehicles
  rw [displayAvailableFrom_eq_filter, List.mem_filter,
    List.mk_mem_enumFrom_iff_le_and_getElem?_sub]
  simp [and_assoc]

/-- C14, at the failing input `registerCustomer("Alice", "alice", "pw1")`,
`loginCustomer("alice", "pw1")`, `registerCustomer("Bob", "bob", "pw2")`, `rentVehicle(2, 7)`:
the available listing is the catalog numbered from 1 and filtered by the flag, and shows the
indices 1, 2 and 3; a session is active and 7 days are allowed, so the claim promises that
`rentVehicle(2, 7)` succeeds; it does not: after its checks the call accesses the customer
through the dangling session pointer. -/
theorem stale_session_listed_index_not_rentable :
    staleSession.displayAvailableVehicles =
      (staleSession.vehicles.enumFrom 1).filter (fun iv => iv.2.isAvailable) ∧
    staleSession.displayAvailableVehicles.map Prod.fst = [1, 2, 3] ∧
    staleSession.currentUser ≠ none ∧
    (staleSession.rentVehicle 2 7).1 = .undefinedBehaviour ∧
    (staleSession.rentVehicle 2 7).1 ≠ .ok := by
  refine ⟨displayAvailableFrom_eq_filter 1 _, by decide, by decide, by decide, by decide⟩

/-! ## `addVehicle` -/

/-- C15: `addVehicle(type, brand, model, price)` with `type` equal to "Sedan", "SUV" or "Truck"
appends exactly one vehicle of that class with the given brand, model and price and the flag
true at the end of the catalog; with any other `type` the state is unchanged. In every case the
vehicles already in the catalog keep their positions and values, and customers, feedback log and
session are unchanged. -/
theorem addVehicle_spec (s : CarRentalSystem) (type brand model : String) (price : ℚ) :
    (type = "Sedan" → s.addVehicle type brand model price =
      { s with vehicles := s.vehicles ++
        [{ kind := .Sedan, brand := brand, model := model, pricePerDay := price,
           isAvailable := true }] }) ∧
    (type = "SUV" → s.addVehicle type brand model price =
      { s with vehicles := s.vehicles ++
        [{ kind := .SUV, brand := brand, model := model, pricePerDay := price,
           isAvailable := true }] }) ∧
    (type = "Truck" → s.addVehicle type brand model price =
      { s with vehicles := s.vehicles ++
        [{ kind := .Truck, brand := brand, model := model, pricePerDay := price,
           isAvailable := true }] }) ∧
    (type ≠ "Sedan" → type ≠ "SUV" → type ≠ "Truck" →
      s.addVehicle type brand model price = s) ∧
    (∀ (p : Nat) (v : Vehicle), s.vehicles[p]? = some v →
      (s.addVehicle type brand model price).vehicles[p]? = some v) ∧
    (s.addVehicle type brand model price).customers = s.customers ∧
    (s.addVehicle type brand model price).feedbacks = s.feedbacks ∧
    (s.addVehicle type brand model price).currentUser = s.currentUser := by
  refine ⟨?_, ?_, ?_, ?_, ?_, ?_, ?_, ?_⟩
  · intro h
    simp [CarRentalSystem.addVehicle, h, Vehicle.new]
  · intro h
    simp [CarRentalSystem.addVehicle, h, Vehicle.new]
  · intro h
    simp [CarRentalSystem.addVehicle, h, Vehicle.new]
  · intro h1 h2 h3
    simp [CarRentalSystem.addVehicle, h1, h2, h3]
  · intro p v hv
    have hlt : p < s.vehicles.length := (List.getElem?_eq_some_iff.1 hv).1
    unfold CarRentalSystem.addVehicle
    repeat' split
    all_goals first
      | exact hv
      | (show (s.vehicles ++ [_])[p]? = some v
         rw [List.getElem?_append_left hlt]
         exact hv)
  · unfold CarRentalSystem.addVehicle
    repeat' split
    all_goals rfl
  · unfold CarRentalSystem.addVehicle
    repeat' split
    all_goals rfl
  · unfold CarRentalSystem.addVehicle
    repeat' split
    all_goals rfl

theorem addVehicle_spec_witness :
    (aliceRents.addVehicle "SUV" "Kia" "Sorento" 70).vehicles = aliceRents.vehicles ++
      [{ kind := .SUV, brand := "Kia", model := "Sorento", pricePerDay := 70,
         isAvailable := true }] ∧
    aliceRents.addVehicle "Van" "Kia" "Carnival" 70 = aliceRents ∧
    aliceRents.addVehicle "sedan" "Kia" "Rio" 40 = aliceRents :=
  ⟨congrArg CarRentalSystem.vehicles
      ((addVehicle_spec aliceRents "SUV" "Kia" "Sorento" 70).2.1 rfl),
    (addVehicle_spec aliceRents "Van" "Kia" "Carnival" 70).2.2.2.1 (by decide) (by decide)
      (by decide),
    (addVehicle_spec aliceRents "sedan" "Kia" "Rio" 40).2.2.2.1 (by decide) (by decide)
      (by decide)⟩

/-! ## Booking histories -/

theorem Booking.sound_append (vs : List Vehicle) (v : Vehicle) (b : Booking)
    (h : b.sound vs) : b.sound (vs ++ [v]) := by
  obtain ⟨h1, h2, p, w, hp, hw, hc⟩ := h
  refine ⟨h1, h2, p, w, hp, ?_, hc⟩
  rw [List.getElem?_append_left (List.getElem?_eq_some_iff.1 hw).1]
  exact hw

theorem Booking.sound_set (vs : List Vehicle) (q : Nat) (v v' : Vehicle) (b : Booking)
    (hq : vs[q]? = some v) (hprice : v'.pricePerDay = v.pricePerDay) (h : b.sound vs) :
    b.sound (vs.set q v') := by
  obtain ⟨h1, h2, p, w, hp, hw, hc⟩ := h
  by_cases hqp : q = p
  · subst hqp
    refine ⟨h1, h2, q, v', hp, List.getElem?_set_self (List.getElem?_eq_some_iff.1 hq).1, ?_⟩
    rw [hq] at hw
    have : v = w := by simpa using hw
    rw [hc, hprice, this]
  · exact ⟨h1, h2, p, w, hp, by rw [List.getElem?_set_ne hqp]; exact hw, hc⟩

/-- Every booking of every customer of a reachable state is sound for the catalog. -/
theorem Reachable.history_sound (s : CarRentalSystem) (h : Reachable s) :
    ∀ (i : Nat) (c : Customer) (b : Booking), s.customers[i]? = some c →
      b ∈ c.bookingHistory → b.sound s.vehicles := by
  refine Reachable.induction_effect
    (fun s => ∀ (i : Nat) (c : Customer) (b : Booking), s.customers[i]? = some c →
      b ∈ c.bookingHistory → b.sound s.vehicles) ?_ ?_ s h
  · intro i c b hc
    simp [CarRentalSystem.new] at hc
  · intro s t _ ih heff
    cases heff with
    | unchanged => exact ih
    | registered c hb hr hu =>
      intro i ci b hci hbm
      have hci' : (s.customers ++ [c])[i]? = some ci := hci
      by_cases hil : i < s.customers.length
      · rw [List.getElem?_append_left hil] at hci'
        exact ih i ci b hci' hbm
      · rw [List.getElem?_append, if_neg hil] at hci'
        have hmem := List.mem_iff_getElem?.2 ⟨_, hci'⟩
        have : ci = c := by simpa using hmem
        rw [this, hb] at hbm
        simp at hbm
    | loggedIn k hk => exact ih
    | passwordSet k c np hk =>
      intro i ci b hci hbm
      have hci' : (s.customers.set k { c with password := np })[i]? = some ci := hci
      by_cases hki : k = i
      · subst hki
        rw [List.getElem?_set_self (List.getElem?_eq_some_iff.1 hk).1] at hci'
        have : ci = { c with password := np } := by simpa using hci'.symm
        rw [this] at hbm
        exact ih k c b hk hbm
      · rw [List.getElem?_set_ne hki] at hci'
        exact ih i ci b hci' hbm
    | vehicleAdded v hv =>
      intro i ci b hci hbm
      exact Booking.sound_append _ _ _ (ih i ci b hci hbm)
    | rented u p cu v days hu hcu hv hav hd1 hd2 =>
      intro i ci b hci hbm
      have hp : p < s.vehicles.length := (List.getElem?_eq_some_iff.1 hv).1
      show b.sound (s.vehicles.set p { v with isAvailable := false })
      have hci' : (s.customers.set u _)[i]? = some ci := hci
      by_cases hui : u = i
      · subst hui
        rw [List.getElem?_set_self (List.getElem?_eq_some_iff.1 hcu).1] at hci'
        have hci2 := (Option.some.inj hci').symm
        rw [hci2] at hbm
        rcases List.mem_append.1 hbm with h1 | h1
        · exact Booking.sound_set _ p v _ b hv rfl (ih u cu b hcu h1)
        · have hb := List.mem_singleton.1 h1
          rw [hb]
          exact ⟨hd1, hd2, p, _, rfl, List.getElem?_set_self hp, rfl⟩
      · rw [List.getElem?_set_ne hui] at hci'
        exact Booking.sound_set _ p v _ b hv rfl (ih i ci b hci' hbm)
    | returned u p cu v hu hcu hv hav hmem =>
      intro i ci b hci hbm
      show b.sound (s.vehicles.set p { v with isAvailable := true })
      have hci' : (s.customers.set u _)[i]? = some ci := hci
      by_cases hui : u = i
      · subst hui
        rw [List.getElem?_set_self (List.getElem?_eq_some_iff.1 hcu).1] at hci'
        have hci2 := (Option.some.inj hci').symm
        rw [hci2] at hbm
        exact Booking.sound_set _ p v _ b hv rfl (ih u cu b hcu hbm)
      · rw [List.getElem?_set_ne hui] at hci'
        exact Booking.sound_set _ p v _ b hv rfl (ih i ci b hci' hbm)
    | feedbackGiven u cu comment hu hcu => exact ih

/-- C16, as the code has it: in every reachable state, every booking in every customer's
booking history has days in `[1, 30]`, refers to a vehicle that is in the catalog, and has as
total cost the `double` product of that vehicle's price per day and its days: the exact product
rounded to the nearest `double`, infinite when it overflows. -/
theorem bookings_sound (s : CarRentalSystem) (h : Reachable s) (i : Nat) (c : Customer)
    (b : Booking) (hc : s.customers[i]? = some c) (hb : b ∈ c.bookingHistory) :
    1 ≤ b.days ∧ b.days ≤ 30 ∧
      ∃ (p : Nat) (v : Vehicle), b.vehicle = some p ∧ s.vehicles[p]? = some v ∧
        b.totalCost = Double.mulInt v.pricePerDay b.days :=
  Reachable.history_sound s h i c b hc hb

theorem bookings_sound_witness :
    Reachable aliceRents ∧
    (1 : Int) ≤ 3 ∧ (3 : Int) ≤ 30 ∧
      ∃ (p : Nat) (v : Vehicle), (some 0 : VehiclePtr) = some p ∧
        aliceRents.vehicles[p]? = some v ∧
        (150 : Double) = Double.mulInt v.pricePerDay (3 : Int) :=
  ⟨reachable_run _ _ Reachable.init,
    bookings_sound aliceRents (reachable_run _ _ Reachable.init) 0
      { name := "Alice", username := "alice", password := "pw1",
        bookingHistory := [{ vehicle := some 0, days := 3, totalCost := 150 }],
        rentedVehicles := [some 0] }
      { vehicle := some 0, days := 3, totalCost := 150 }
      (by decide!) (by simp)⟩

/-- C16, as the specification has it, fails: after a vehicle priced at the `double` nearest to
0.1 was added and Alice rented it for 3 days, her booking has `totalCost =
0x1.3333333333334p-2`, which is not that vehicle's price per day multiplied by 3. -/
theorem booking_cost_is_rounded_product :
    Reachable tenthRented ∧
    (∃ v, tenthRented.vehicles[3]? = some v ∧ v.pricePerDay = oneTenth) ∧
    tenthRented.customers.map Customer.bookingHistory =
      [[{ vehicle := some 3, days := 3,
          totalCost := .finite (1351079888211149 / 4503599627370496) }]] ∧
    (1351079888211149 / 4503599627370496 : ℚ) ≠ oneTenth * ((3 : Int) : ℚ) := by
  refine ⟨reachable_run _ _ (reachable_run _ _ Reachable.init),
    ⟨{ Vehicle.new .Sedan "Kia" "Rio" oneTenth with isAvailable := false }, by decide!, rfl⟩,
    by decide!, by decide!⟩

/-! ## The session -/

theorem Effect.session_stays (s t : CarRentalSystem) (h : Effect s t)
    (hs : s.currentUser ≠ none) : t.currentUser ≠ none := by
  cases h with
  | unchanged => exact hs
  | registered c hb hr hu => exact hs
  | loggedIn k hk => exact fun h => Option.noConfusion h
  | passwordSet k c np hk => exact hs
  | vehicleAdded v hv => exact hs
  | rented u p cu v days hu hcu hv hav hd1 hd2 => exact hs
  | returned u p cu v hu hcu hv hav hmem => exact hs
  | feedbackGiven u cu comment hu hcu => exact hs

theorem run_session_stays (s : CarRentalSystem) (ops : List Op) (hs : s.currentUser ≠ none) :
    (run s ops).currentUser ≠ none := by
  induction ops generalizing s with
  | nil => exact hs
  | cons op ops ih => exact ih (step s op) (Effect.session_stays s _ (step_effect s op) hs)

/-- C17, as the code has it: the Logout branch of the customer menu only leaves the menu loop
and calls no method of the system, so after a successful `loginCustomer` followed by the
customer-menu logout the state is the one the login produced: the current user is still the
customer who logged in, `rentVehicle`, `returnVehicle` and `giveFeedback` do not report
NotAuthenticated, and no later sequence of calls makes the current user absent again. -/
theorem logout_keeps_session (s : CarRentalSystem) (username password : String)
    (h : (s.loginCustomer username password).1 = .ok) :
    customerMenu (s.loginCustomer username password).2 .logout =
      ((s.loginCustomer username password).2, false) ∧
    (∃ (k : Nat) (c : Customer),
      (customerMenu (s.loginCustomer username password).2 .logout).1.getCurrentUser = some k ∧
      s.customers[k]? = some c ∧ c.username = username ∧ c.password = password) ∧
    (∀ index days : Int,
      ((customerMenu (s.loginCustomer username password).2 .logout).1.rentVehicle
        index days).1 ≠ .NotAuthenticated) ∧
    (∀ index : Int,
      ((customerMenu (s.loginCustomer username password).2 .logout).1.returnVehicle
        index).1 ≠ .NotAuthenticated) ∧
    (∀ comment : String,
      ((customerMenu (s.loginCustomer username password).2 .logout).1.giveFeedback
        comment).1 = .ok) ∧
    (∀ ops : List Op,
      (run (customerMenu (s.loginCustomer username password).2 .logout).1 ops).currentUser
        ≠ none) := by
  cases hscan : loginScan username password s.customers with
  | none => simp [CarRentalSystem.loginCustomer, hscan] at h
  | some k =>
    obtain ⟨⟨c, hc, hu, hp⟩, _⟩ := (loginScan_some username password s.customers k).1 hscan
    have hres : s.loginCustomer username password =
        (.ok, { s with currentUser := some k, currentUserBuffer := s.customers.length }) := by
      simp [CarRentalSystem.loginCustomer, hscan]
    rw [hres]
    refine ⟨rfl, ⟨k, c, rfl, hc, hu, hp⟩, ?_, ?_, ?_, ?_⟩
    · intro index days
      show (CarRentalSystem.rentVehicle
        { s with currentUser := some k, currentUserBuffer := s.customers.length }
        index days).1 ≠ _
      unfold CarRentalSystem.rentVehicle
      generalize (index - 1).toNat = p
      dsimp only
      repeat' split
      all_goals simp
    · intro index
      show (CarRentalSystem.returnVehicle
        { s with currentUser := some k, currentUserBuffer := s.customers.length } index).1 ≠ _
      unfold CarRentalSystem.returnVehicle
      generalize (index - 1).toNat = p
      dsimp only
      repeat' split
      all_goals simp
    · intro comment
      show (CarRentalSystem.giveFeedback
        { s with currentUser := some k, currentUserBuffer := s.customers.length } comment).1 = _
      simp [CarRentalSystem.giveFeedback, CarRentalSystem.deref, hc]
    · intro ops
      exact run_session_stays _ ops (fun h => Option.noConfusion h)

theorem logout_keeps_session_witness :
    customerMenu (aliceRegistered.loginCustomer "alice" "pw1").2 .logout =
      ((aliceRegistered.loginCustomer "alice" "pw1").2, false) ∧
    (∃ (k : Nat) (c : Customer),
      (customerMenu (aliceRegistered.loginCustomer "alice" "pw1").2
        .logout).1.getCurrentUser = some k ∧
      aliceRegistered.customers[k]? = some c ∧ c.username = "alice" ∧ c.password = "pw1") ∧
    (∀ index days : Int,
      ((customerMenu (aliceRegistered.loginCustomer "alice" "pw1").2 .logout).1.rentVehicle
        index days).1 ≠ .NotAuthenticated) ∧
    (∀ index : Int,
      ((customerMenu (aliceRegistered.loginCustomer "alice" "pw1").2 .logout).1.returnVehicle
        index).1 ≠ .NotAuthenticated) ∧
    (∀ comment : String,
      ((customerMenu (aliceRegistered.loginCustomer "alice" "pw1").2 .logout).1.giveFeedback
        comment).1 = .ok) ∧
    (∀ ops : List Op,
      (run (customerMenu (aliceRegistered.loginCustomer "alice" "pw1").2 .logout).1
        ops).currentUser ≠ none) :=
  logout_keeps_session aliceRegistered "alice" "pw1" (by decide)

/-- C17, as the specification has it, fails: after Alice logs in and then leaves the customer
menu through Logout, the current user is still Alice, and `rentVehicle`, `returnVehicle` and
`giveFeedback` succeed instead of reporting NotAuthenticated. -/
theorem logout_session_still_active :
    aliceRegistered.loginCustomer "alice" "pw1" = (.ok, aliceLoggedIn) ∧
    customerMenu aliceLoggedIn .logout = (aliceLoggedIn, false) ∧
    (customerMenu aliceLoggedIn .logout).1.getCurrentUser = some 0 ∧
    ((customerMenu aliceLoggedIn .logout).1.rentVehicle 1 3).1 = .ok ∧
    ((customerMenu aliceLoggedIn .logout).1.giveFeedback "fine").1 = .ok ∧
    ((customerMenu aliceRents .logout).1.returnVehicle 1).1 = .ok := by
  refine ⟨rfl, rfl, by decide, by decide, by decide, by decide⟩

/-! ## The `Booking` constructor -/

/-- C18, as the code has it: the `Booking` constructor accepts every `days` and never reports
InvalidDuration: for a pointer to a vehicle of the catalog, and for the null pointer, it builds
a booking with exactly the given days. The check of `days` against `[1, 30]` is made by
`rentVehicle` before it constructs the booking: whenever `rentVehicle` succeeds,
`1 ≤ days ≤ 30`. -/
theorem Booking_new_accepts_every_days :
    (∀ (heap : List Vehicle) (p : Nat) (v : Vehicle) (d : Int), heap[p]? = some v →
      ∃ b, Booking.new heap (some p) d = some b ∧ b.vehicle = some p ∧ b.days = d) ∧
    (∀ (heap : List Vehicle) (d : Int),
      ∃ b, Booking.new heap none d = some b ∧ b.vehicle = none ∧ b.days = d) ∧
    (∀ (s : CarRentalSystem) (index days : Int), (s.rentVehicle index days).1 = .ok →
      1 ≤ days ∧ days ≤ 30) := by
  refine ⟨?_, ?_, ?_⟩
  · intro heap p v d hv
    refine ⟨{ vehicle := some p, days := d, totalCost := Double.mulInt v.getPrice d },
      ?_, rfl, rfl⟩
    simp [Booking.new, hv]
  · intro heap d
    exact ⟨_, rfl, rfl, rfl⟩
  · intro s index days hok
    obtain ⟨_, _, _, _, _, _, _, _, _, _, hd1, hd2⟩ := rentVehicle_ok_inv s index days hok
    exact ⟨hd1, hd2⟩

theorem Booking_new_accepts_every_days_witness :
    (∃ b, Booking.new CarRentalSystem.new.vehicles (some 1) 31 = some b ∧
      b.vehicle = some 1 ∧ b.days = 31) ∧
    ((1 : Int) ≤ 30 ∧ (30 : Int) ≤ 30) :=
  ⟨Booking_new_accepts_every_days.1 CarRentalSystem.new.vehicles 1
      (Vehicle.new .SUV "Honda" "CR-V" 65) 31 (by decide),
    Booking_new_accepts_every_days.2.2 aliceLoggedIn 1 30 (by decide)⟩

/-- C18, as the specification has it, fails: the constructor builds bookings with `days = 0` and
with `days = 31`. -/
theorem Booking_new_days_out_of_range :
    (∃ b, Booking.new CarRentalSystem.new.vehicles (some 0) 0 = some b ∧ b.days = 0) ∧
    (∃ b, Booking.new CarRentalSystem.new.vehicles (some 0) 31 = some b ∧ b.days = 31) := by
  refine ⟨⟨_, rfl, rfl⟩, ⟨_, rfl, rfl⟩⟩

/-! ## The catalog only grows -/

theorem stable_of_vehicles_eq (s t : CarRentalSystem) (Q : Nat → Prop) (h : t.vehicles = s.vehicles) :
    s.vehicles.length ≤ t.vehicles.length ∧
    ∀ (p : Nat) (v : Vehicle), s.vehicles[p]? = some v →
      ∃ v', t.vehicles[p]? = some v' ∧ v'.kind = v.kind ∧ v'.brand = v.brand ∧
        v'.model = v.model ∧ v'.pricePerDay = v.pricePerDay ∧
        (v'.isAvailable ≠ v.isAvailable → Q p) := by
  rw [h]
  exact ⟨le_refl _, fun p v hv => ⟨v, hv, rfl, rfl, rfl, rfl, fun hne => absurd rfl hne⟩⟩

theorem stable_of_vehicles_append (s t : CarRentalSystem) (Q : Nat → Prop) (x : Vehicle)
    (h : t.vehicles = s.vehicles ++ [x]) :
    s.vehicles.length ≤ t.vehicles.length ∧
    ∀ (p : Nat) (v : Vehicle), s.vehicles[p]? = some v →
      ∃ v', t.vehicles[p]? = some v' ∧ v'.kind = v.kind ∧ v'.brand = v.brand ∧
        v'.model = v.model ∧ v'.pricePerDay = v.pricePerDay ∧
        (v'.isAvailable ≠ v.isAvailable → Q p) := by
  rw [h]
  refine ⟨by simp, fun p v hv => ⟨v, ?_, rfl, rfl, rfl, rfl, fun hne => absurd rfl hne⟩⟩
  rw [List.getElem?_append_left (List.getElem?_eq_some_iff.1 hv).1]
  exact hv

theorem stable_of_vehicles_set (s t : CarRentalSystem) (Q : Prop) (q : Nat) (w : Vehicle)
    (flag : Bool) (hw : s.vehicles[q]? = some w)
    (h : t.vehicles = s.vehicles.set q { w with isAvailable := flag }) (hQ : Q) :
    s.vehicles.length ≤ t.vehicles.length ∧
    ∀ (p : Nat) (v : Vehicle), s.vehicles[p]? = some v →
      ∃ v', t.vehicles[p]? = some v' ∧ v'.kind = v.kind ∧ v'.brand = v.brand ∧
        v'.model = v.model ∧ v'.pricePerDay = v.pricePerDay ∧
        (v'.isAvailable ≠ v.isAvailable → p = q ∧ Q) := by
  rw [h]
  refine ⟨by simp, fun p v hv => ?_⟩
  by_cases hqp : q = p
  · subst hqp
    rw [hw] at hv
    have hwv : w = v := by simpa using hv
    subst hwv
    exact ⟨_, List.getElem?_set_self (List.getElem?_eq_some_iff.1 hw).1, rfl, rfl, rfl, rfl,
      fun _ => ⟨rfl, hQ⟩⟩
  · exact ⟨v, by rw [List.getElem?_set_ne hqp]; exact hv, rfl, rfl, rfl, rfl,
      fun hne => absurd rfl hne⟩

/-- C19: for every state and every call of a method, the catalog afterwards has at least as many
vehicles as before, and every vehicle that was at a position before is still at that position
with the same class, brand, model and price per day; if its availability flag differs, the call
was `rentVehicle` or `returnVehicle` and the position is the one designated by the 1-based index
given to that call. -/
theorem catalog_grows_positions_stable (s : CarRentalSystem) (op : Op) :
    s.vehicles.length ≤ (step s op).vehicles.length ∧
    ∀ (p : Nat) (v : Vehicle), s.vehicles[p]? = some v →
      ∃ v', (step s op).vehicles[p]? = some v' ∧ v'.kind = v.kind ∧ v'.brand = v.brand ∧
        v'.model = v.model ∧ v'.pricePerDay = v.pricePerDay ∧
        (v'.isAvailable ≠ v.isAvailable →
          (∃ days, op = .rentVehicle ((p : Int) + 1) days) ∨
            op = .returnVehicle ((p : Int) + 1)) := by
  cases op with
  | registerCustomer n u pw =>
    refine stable_of_vehicles_eq s _ _ ?_
    show (s.registerCustomer n u pw).2.vehicles = s.vehicles
    unfold CarRentalSystem.registerCustomer
    split <;> rfl
  | loginCustomer u pw =>
    refine stable_of_vehicles_eq s _ _ ?_
    show (s.loginCustomer u pw).2.vehicles = s.vehicles
    unfold CarRentalSystem.loginCustomer
    split <;> rfl
  | resetPassword u pw =>
    refine stable_of_vehicles_eq s _ _ ?_
    show (s.resetPassword u pw).2.vehicles = s.vehicles
    unfold CarRentalSystem.resetPassword
    split <;> rfl
  | addVehicle t b m pr =>
    have hv : (step s (.addVehicle t b m pr)).vehicles = s.vehicles ∨
        ∃ x, (step s (.addVehicle t b m pr)).vehicles = s.vehicles ++ [x] := by
      show (s.addVehicle t b m pr).vehicles = s.vehicles ∨
        ∃ x, (s.addVehicle t b m pr).vehicles = s.vehicles ++ [x]
      unfold CarRentalSystem.addVehicle
      repeat' split
      all_goals first | exact Or.inl rfl | exact Or.inr ⟨_, rfl⟩
    rcases hv with hv | ⟨x, hv⟩
    · exact stable_of_vehicles_eq s _ _ hv
    · exact stable_of_vehicles_append s _ _ x hv
  | rentVehicle i d =>
    by_cases hok : (s.rentVehicle i d).1 = .ok
    · obtain ⟨u, cu, w, hu, hcu, hbuf, h1, _, hw, hav, hd1, hd2⟩ := rentVehicle_ok_inv s i d hok
      have key := stable_of_vehicles_set s (step s (.rentVehicle i d)) True (i - 1).toNat w
        false hw
        (by
          show (s.rentVehicle i d).2.vehicles = _
          rw [rentVehicle_ok s i d u cu w hu hcu hbuf h1 hw hav hd1 hd2]) trivial
      refine ⟨key.1, fun p v hv => ?_⟩
      obtain ⟨v', h1', h2', h3', h4', h5', h6'⟩ := key.2 p v hv
      refine ⟨v', h1', h2', h3', h4', h5', fun hne => Or.inl ⟨d, ?_⟩⟩
      have hp : p = (i - 1).toNat := (h6' hne).1
      have : (p : Int) + 1 = i := by omega
      rw [this]
    · refine stable_of_vehicles_eq s _ _ ?_
      show (s.rentVehicle i d).2.vehicles = s.vehicles
      rw [rentVehicle_not_ok s i d hok]
  | returnVehicle i =>
    by_cases hok : (s.returnVehicle i).1 = .ok
    · obtain ⟨u, cu, w, hu, hcu, hbuf, h1, _, hw, hav, hmem⟩ := returnVehicle_ok_inv s i hok
      have key := stable_of_vehicles_set s (step s (.returnVehicle i)) True (i - 1).toNat w
        true hw
        (by
          show (s.returnVehicle i).2.vehicles = _
          rw [returnVehicle_ok s i u cu w hu hcu hbuf h1 hw hav hmem]) trivial
      refine ⟨key.1, fun p v hv => ?_⟩
      obtain ⟨v', h1', h2', h3', h4', h5', h6'⟩ := key.2 p v hv
      refine ⟨v', h1', h2', h3', h4', h5', fun hne => Or.inr ?_⟩
      have hp : p = (i - 1).toNat := (h6' hne).1
      have : (p : Int) + 1 = i := by omega
      rw [this]
    · refine stable_of_vehicles_eq s _ _ ?_
      show (s.returnVehicle i).2.vehicles = s.vehicles
      rw [returnVehicle_not_ok s i hok]
  | giveFeedback c =>
    refine stable_of_vehicles_eq s _ _ ?_
    show (s.giveFeedback c).2.vehicles = s.vehicles
    unfold CarRentalSystem.giveFeedback
    repeat' split
    all_goals rfl

theorem catalog_grows_positions_stable_witness :
    aliceLoggedIn.vehicles.length ≤ (step aliceLoggedIn (.rentVehicle 2 4)).vehicles.length ∧
    ∃ v', (step aliceLoggedIn (.rentVehicle 2 4)).vehicles[1]? = some v' ∧
      v'.kind = .SUV ∧ v'.brand = "Honda" ∧ v'.model = "CR-V" ∧ v'.pricePerDay = 65 ∧
      (v'.isAvailable ≠ true →
        (∃ days, Op.rentVehicle 2 4 = .rentVehicle (((1 : Nat) : Int) + 1) days) ∨
          Op.rentVehicle 2 4 = .returnVehicle (((1 : Nat) : Int) + 1)) :=
  ⟨(catalog_grows_positions_stable aliceLoggedIn (.rentVehicle 2 4)).1,
    (catalog_grows_positions_stable aliceLoggedIn (.rentVehicle 2 4)).2 1
      (Vehicle.new .SUV "Honda" "CR-V" 65) (by decide)⟩

/-! ## Password reset followed by login -/

/-- The only way `rentVehicle` can reach an access to an object that does not exist is a session
pointer that designates no customer, met after the catalog lookup succeeded and every check
passed. -/
theorem rentVehicle_undefined_iff (s : CarRentalSystem) (index days : Int) :
    (s.rentVehicle index days).1 = .undefinedBehaviour ↔
      ∃ (u : Nat) (v : Vehicle), s.currentUser = some u ∧ s.deref u = none ∧
        1 ≤ index ∧ index ≤ (s.vehicles.length : Int) ∧
        s.vehicles[(index - 1).toNat]? = some v ∧ v.isAvailable = true ∧
        1 ≤ days ∧ days ≤ 30 := by
  constructor
  · intro h
    cases hu : s.currentUser with
    | none => simp [CarRentalSystem.rentVehicle, hu] at h
    | some u =>
      by_cases hr : index < 1 ∨ index > (s.vehicles.length : Int)
      · simp [CarRentalSystem.rentVehicle, hu, hr] at h
      · have hlt : (index - 1).toNat < s.vehicles.length := by omega
        obtain ⟨v, hv⟩ : ∃ v, s.vehicles[(index - 1).toNat]? = some v :=
          ⟨_, List.getElem?_eq_getElem hlt⟩
        cases hav : v.isAvailable with
        | false =>
          unfold CarRentalSystem.rentVehicle at h
          generalize (index - 1).toNat = p at *
          simp [hu, hr, hv, hav, Vehicle.getAvailability] at h
        | true =>
          by_cases hd : days < 1 ∨ days > 30
          · unfold CarRentalSystem.rentVehicle at h
            generalize (index - 1).toNat = p at *
            simp [hu, hr, hv, hav, hd, Vehicle.getAvailability] at h
          · cases hcu : s.deref u with
            | none => exact ⟨u, v, rfl, hcu, by omega, by omega, hv, hav, by omega, by omega⟩
            | some cu =>
              obtain ⟨hc1, hc2⟩ := (deref_eq_some_iff s u cu).1 hcu
              rw [rentVehicle_ok s index days u cu v hu hc1 hc2 (by omega) hv hav (by omega)
                (by omega)] at h
              simp at h
  · rintro ⟨u, v, hu, hcu, h1, h2, hv, hav, hd1, hd2⟩
    have hr : ¬ (index < 1 ∨ index > (s.vehicles.length : Int)) := by omega
    have hd : ¬ (days < 1 ∨ days > 30) := by omega
    unfold CarRentalSystem.rentVehicle
    generalize (index - 1).toNat = p at *
    simp [hu, hr, hv, hav, hd, hcu, Vehicle.getAvailability]

/-- The only way `returnVehicle` can reach an access to an object that does not exist is a
session pointer that designates no customer, met after the catalog lookup succeeded. -/
theorem returnVehicle_undefined_iff (s : CarRentalSystem) (index : Int) :
    (s.returnVehicle index).1 = .undefinedBehaviour ↔
      ∃ (u : Nat) (v : Vehicle), s.currentUser = some u ∧ s.deref u = none ∧
        1 ≤ index ∧ index ≤ (s.vehicles.length : Int) ∧
        s.vehicles[(index - 1).toNat]? = some v ∧ v.isAvailable = false := by
  constructor
  · intro h
    cases hu : s.currentUser with
    | none => simp [CarRentalSystem.returnVehicle, hu] at h
    | some u =>
      by_cases hr : index < 1 ∨ index > (s.vehicles.length : Int)
      · simp [CarRentalSystem.returnVehicle, hu, hr] at h
      · have hlt : (index - 1).toNat < s.vehicles.length := by omega
        obtain ⟨v, hv⟩ : ∃ v, s.vehicles[(index - 1).toNat]? = some v :=
          ⟨_, List.getElem?_eq_getElem hlt⟩
        cases hav : v.isAvailable with
        | true =>
          unfold CarRentalSystem.returnVehicle at h
          generalize (index - 1).toNat = p at *
          simp [hu, hr, hv, hav, Vehicle.getAvailability] at h
        | false =>
          cases hcu : s.deref u with
          | none => exact ⟨u, v, rfl, hcu, by omega, by omega, hv, hav⟩
          | some cu =>
            unfold CarRentalSystem.returnVehicle at h
            generalize (index - 1).toNat = p at *
            by_cases hmem : cu.hasRented (some p) = true
            · simp [hu, hr, hv, hav, hcu, hmem, Vehicle.getAvailability] at h
            · simp [hu, hr, hv, hav, hcu, hmem, Vehicle.getAvailability] at h
  · rintro ⟨u, v, hu, hcu, h1, h2, hv, hav⟩
    have hr : ¬ (index < 1 ∨ index > (s.vehicles.length : Int)) := by omega
    unfold CarRentalSystem.returnVehicle
    generalize (index - 1).toNat = p at *
    simp [hu, hr, hv, hav, hcu, Vehicle.getAvailability]

/-- C21: for every state and every integer index, zero, negative values and values above the
catalog size included, `rentVehicle` and `returnVehicle` read the catalog at position
`index - 1` only after `1 ≤ index ≤ vehicles.size()` has been established: when that guard fails
the call ends with NotAuthenticated or OutOfRange and the state unchanged; when it holds,
position `index - 1` is a position of the catalog and the lookup returns a vehicle. So the
`none` branch of the lookup is unreachable: the two methods end in an access to an object that
does not exist only when the access through the session pointer finds no customer, and then
after a lookup that returned a vehicle; with a session pointer that is null or designates a
customer they never do. -/
theorem catalog_lookup_in_bounds (s : CarRentalSystem) (index days : Int) :
    (index < 1 ∨ index > (s.vehicles.length : Int) →
      ((s.rentVehicle index days).1 = .NotAuthenticated ∨
        (s.rentVehicle index days).1 = .OutOfRange) ∧
      (s.rentVehicle index days).2 = s ∧
      ((s.returnVehicle index).1 = .NotAuthenticated ∨
        (s.returnVehicle index).1 = .OutOfRange) ∧
      (s.returnVehicle index).2 = s) ∧
    (1 ≤ index → index ≤ (s.vehicles.length : Int) →
      (((index - 1).toNat : Nat) : Int) = index - 1 ∧
      (index - 1).toNat < s.vehicles.length ∧
      ∃ v : Vehicle, s.vehicles[(index - 1).toNat]? = some v) ∧
    ((s.rentVehicle index days).1 = .undefinedBehaviour →
      ∃ (u : Nat) (v : Vehicle), s.currentUser = some u ∧ s.deref u = none ∧
        s.vehicles[(index - 1).toNat]? = some v) ∧
    ((s.returnVehicle index).1 = .undefinedBehaviour →
      ∃ (u : Nat) (v : Vehicle), s.currentUser = some u ∧ s.deref u = none ∧
        s.vehicles[(index - 1).toNat]? = some v) ∧
    ((∀ u, s.currentUser = some u → ∃ cu, s.deref u = some cu) →
      (s.rentVehicle index days).1 ≠ .undefinedBehaviour ∧
      (s.returnVehicle index).1 ≠ .undefinedBehaviour) := by
  refine ⟨?_, ?_, ?_, ?_, ?_⟩
  · intro hr
    cases hu : s.currentUser with
    | none =>
      simp [CarRentalSystem.rentVehicle, CarRentalSystem.returnVehicle, hu]
    | some u =>
      simp [CarRentalSystem.rentVehicle, CarRentalSystem.returnVehicle, hu, hr]
  · intro h1 h2
    have hlt : (index - 1).toNat < s.vehicles.length := by omega
    exact ⟨by omega, hlt, _, List.getElem?_eq_getElem hlt⟩
  · intro h
    obtain ⟨u, v, hu, hcu, _, _, hv, _⟩ := (rentVehicle_undefined_iff s index days).1 h
    exact ⟨u, v, hu, hcu, hv⟩
  · intro h
    obtain ⟨u, v, hu, hcu, _, _, hv, _⟩ := (returnVehicle_undefined_iff s index).1 h
    exact ⟨u, v, hu, hcu, hv⟩
  · intro hs
    constructor
    · intro h
      obtain ⟨u, _, hu, hcu, _⟩ := (rentVehicle_undefined_iff s index days).1 h
      obtain ⟨cu, hsome⟩ := hs u hu
      rw [hcu] at hsome
      exact Option.noConfusion hsome
    · intro h
      obtain ⟨u, _, hu, hcu, _⟩ := (returnVehicle_undefined_iff s index).1 h
      obtain ⟨cu, hsome⟩ := hs u hu
      rw [hcu] at hsome
      exact Option.noConfusion hsome

theorem catalog_lookup_in_bounds_witness :
    ((aliceRents.rentVehicle 0 3).1 = .OutOfRange ∧ (aliceRents.rentVehicle 0 3).2 = aliceRents ∧
      (aliceRents.returnVehicle 0).1 = .OutOfRange) ∧
    ((aliceRents.rentVehicle (-5) 3).1 = .OutOfRange ∧
      (aliceRents.returnVehicle (-5)).2 = aliceRents) ∧
    ((aliceRents.rentVehicle 4 3).1 = .OutOfRange ∧ (aliceRents.returnVehicle 4).1 = .OutOfRange) ∧
    (((((3 : Int) - 1).toNat : Nat) : Int) = 3 - 1 ∧
      ((3 : Int) - 1).toNat < aliceRents.vehicles.length ∧
      ∃ v : Vehicle, aliceRents.vehicles[((3 : Int) - 1).toNat]? = some v) ∧
    ((aliceRents.rentVehicle 3 3).1 ≠ .undefinedBehaviour ∧
      (aliceRents.returnVehicle 3).1 ≠ .undefinedBehaviour) :=
  ⟨⟨((catalog_lookup_in_bounds aliceRents 0 3).1 (by decide)).1.resolve_left (by decide),
      ((catalog_lookup_in_bounds aliceRents 0 3).1 (by decide)).2.1,
      ((catalog_lookup_in_bounds aliceRents 0 3).1 (by decide)).2.2.1.resolve_left (by decide)⟩,
    ⟨((catalog_lookup_in_bounds aliceRents (-5) 3).1 (by decide)).1.resolve_left (by decide),
      ((catalog_lookup_in_bounds aliceRents (-5) 3).1 (by decide)).2.2.2⟩,
    ⟨((catalog_lookup_in_bounds aliceRents 4 3).1 (by decide)).1.resolve_left (by decide),
      ((catalog_lookup_in_bounds aliceRents 4 3).1 (by decide)).2.2.1.resolve_left (by decide)⟩,
    (catalog_lookup_in_bounds aliceRents 3 3).2.1 (by decide) (by decide),
    (catalog_lookup_in_bounds aliceRents 3 3).2.2.2.2
      (fun u hu => ⟨Customer.addBooking (Customer.addRentedVehicle
          (Customer.new "Alice" "alice" "pw1") (some 0))
          { vehicle := some 0, days := 3, totalCost := 150 }, by
        have hu0 : u = 0 := by
          have h0 : aliceRents.currentUser = some 0 := by decide
          rw [h0] at hu
          exact (Option.some.inj hu).symm
        subst hu0
        decide!⟩)⟩

end CarRental
